import Mathlib

/-!
Verification development for the `touch` utility reimplementation
(timestamp resolution and application engine).

The Go sources are shallowly embedded:
* strings are `List Char`;
* `time.Time` values are embedded as their observable calendar components
  in the local timezone (`GoTime`);
* the filesystem and platform capabilities are explicit records
  (`FS`, `Platform`), with injectable failure behaviour, mirroring the
  `filesystem.Default` / `platform` indirection of the source;
* functions that write to stderr additionally return the list of
  emitted lines.
-/

/-- Go strings, embedded as lists of characters. -/
abbrev GoStr := List Char

instance {ε α : Type} [DecidableEq ε] [DecidableEq α] : DecidableEq (Except ε α) :=
  fun x y =>
    match x, y with
    | .ok a, .ok b => if h : a = b then isTrue (by rw [h]) else isFalse (by simp [h])
    | .error a, .error b => if h : a = b then isTrue (by rw [h]) else isFalse (by simp [h])
    | .ok _, .error _ => isFalse (by simp)
    | .error _, .ok _ => isFalse (by simp)

/-- Observable components of a Go `time.Time` in the local timezone:
`Year()`, `Month()`, `Day()`, `Hour()`, `Minute()`, `Second()`. -/
structure GoTime where
  year : Int
  month : Nat
  day : Nat
  hour : Nat
  minute : Nat
  second : Nat
  deriving DecidableEq, Repr

/-- Leap-year test of Go `time.isLeap`: divisible by 4 and (not by 100 or by 400). -/
def isLeap (y : Int) : Bool :=
  y % 4 == 0 && (y % 100 != 0 || y % 400 == 0)

/-- Days in a month, as in Go `time.daysIn`. -/
def daysInMonth (y : Int) (m : Nat) : Nat :=
  if m = 2 then (if isLeap y then 29 else 28)
  else if m = 4 ∨ m = 6 ∨ m = 9 ∨ m = 11 then 30
  else 31

/-- Roll a day count that may exceed the month length forward into the
following months, carrying into the year from December.  Go `time.Date`
performs this normalization by converting to an absolute day count and
back; for the ranges produced here (month 1–12, day ≥ 1) the two agree.
The fuel argument bounds the recursion and is always sufficient. -/
def rollDays : Nat → Int → Nat → Nat → Int × Nat × Nat
  | 0, y, m, d => (y, m, d)
  | fuel + 1, y, m, d =>
    if d ≤ daysInMonth y m then (y, m, d)
    else if m = 12 then rollDays fuel (y + 1) 1 (d - 31)
    else rollDays fuel y (m + 1) (d - daysInMonth y m)

/-- Model of Go `time.Date(year, month, day, hour, minute, second, 0, time.Local)`
restricted to the arguments produced by this program: month is already in
1–12 (every caller range-checks it first) and the remaining components are
non-negative.  Seconds overflow into minutes, minutes into hours, hours
into days, and days beyond the month length roll into later months,
exactly as Go's normalization does. -/
def GoDate (year : Int) (month day hour minute second : Nat) : GoTime :=
  let minute1 := minute + second / 60
  let second1 := second % 60
  let hour1 := hour + minute1 / 60
  let minute2 := minute1 % 60
  let day1 := day + hour1 / 24
  let hour2 := hour1 % 24
  let r := rollDays (day1 + 1) year month day1
  ⟨r.1, r.2.1, r.2.2, hour2, minute2, second1⟩

/-! ## StampParser: `internal/timestamp/parse.go` -/

/-- Errors produced by the timestamp parsers.  Payload strings of the Go
errors are message formatting only and are not modelled. -/
inductive ParseErr where
  | invalidSeconds
  | atoiSeconds
  | atoiCentury
  | atoiYear2
  | atoiMonth
  | atoiDay
  | atoiHour
  | atoiMinute
  | invalidPosixLength
  | invalidDateTimeValues
  | unsupportedDateFormat
  deriving DecidableEq, Repr

/-- Accumulator loop for a run of decimal digits, failing on any
non-digit, as Go `strconv.ParseInt` does after the sign. -/
def decDigitsAux : GoStr → Nat → Option Nat
  | [], acc => some acc
  | c :: cs, acc =>
    if c.isDigit then decDigitsAux cs (acc * 10 + (c.toNat - 48)) else none

/-- Model of Go `strconv.Atoi`: optional leading sign followed by a
non-empty run of decimal digits.  (Overflow cannot occur for the short
fields parsed here.) -/
def goAtoi : GoStr → Option Int
  | [] => none
  | c :: cs =>
    if c = '+' then
      if cs = [] then none else (decDigitsAux cs 0).map Int.ofNat
    else if c = '-' then
      if cs = [] then none else (decDigitsAux cs 0).map (fun n => -(n : Int))
    else
      (decDigitsAux (c :: cs) 0).map Int.ofNat

/-- Split a string at its first dot: models `strings.Index(s, ".")`
followed by the two slicings `s[dotIndex+1:]` and `s[:dotIndex]` in
`ParsePosixTime`.  Returns the part before the first dot and, when a
dot is present, the part after it. -/
def splitDot : GoStr → GoStr × Option GoStr
  | [] => ([], none)
  | c :: cs =>
    if c = '.' then ([], some cs)
    else
      let r := splitDot cs
      (c :: r.1, r.2)

/-- The `[.ss]` suffix handling of `ParsePosixTime`: absent suffix means
zero seconds; a present suffix must be exactly two characters, parse via
`Atoi`, and lie in 0–61 (leap seconds tolerated). -/
def parseSeconds : Option GoStr → Except ParseErr Int
  | none => .ok 0
  | some suf =>
    if suf.length ≠ 2 then .error .invalidSeconds
    else
      match goAtoi suf with
      | none => .error .atoiSeconds
      | some v => if v < 0 ∨ 61 < v then .error .invalidSeconds else .ok v

/-- Common tail of `ParsePosixTime`: parse `MMDDhhmm` from `rest`
(whose length is 8 in every call), range-check the components, and build
the time via `time.Date`. -/
def parseYMDHM (year : Int) (rest : GoStr) (second : Int) : Except ParseErr GoTime :=
  match goAtoi (rest.take 2) with
  | none => .error .atoiMonth
  | some month =>
    match goAtoi ((rest.drop 2).take 2) with
    | none => .error .atoiDay
    | some day =>
      match goAtoi ((rest.drop 4).take 2) with
      | none => .error .atoiHour
      | some hour =>
        match goAtoi ((rest.drop 6).take 2) with
        | none => .error .atoiMinute
        | some minute =>
          if month < 1 ∨ 12 < month ∨ day < 1 ∨ 31 < day ∨
              hour < 0 ∨ 23 < hour ∨ minute < 0 ∨ 59 < minute then
            .error .invalidDateTimeValues
          else
            .ok (GoDate year month.toNat day.toNat hour.toNat minute.toNat second.toNat)

/-- Model of `timestamp.ParsePosixTime`: the `[[CC]YY]MMDDhhmm[.ss]`
grammar.  `currentYear` models `time.Now().Year()`, used by the 8-digit
form. -/
def ParsePosixTime (currentYear : Int) (s : GoStr) : Except ParseErr GoTime :=
  match parseSeconds (splitDot s).2 with
  | .error e => .error e
  | .ok second =>
    let pre := (splitDot s).1
    if pre.length = 12 then
      match goAtoi (pre.take 2) with
      | none => .error .atoiCentury
      | some century =>
        match goAtoi ((pre.drop 2).take 2) with
        | none => .error .atoiYear2
        | some year2 => parseYMDHM (century * 100 + year2) (pre.drop 4) second
    else if pre.length = 10 then
      match goAtoi (pre.take 2) with
      | none => .error .atoiYear2
      | some year2 =>
        let year := 1900 + year2 + (if year2 < 69 then 100 else 0)
        parseYMDHM year (pre.drop 2) second
    else if pre.length = 8 then
      parseYMDHM currentYear pre second
    else .error .invalidPosixLength

/-! ## StampParser: `ParseDate` (flexible date formats)

Each of the seven Go layout strings is embedded as one fixed-shape
parser.  Following Go `time.Parse`: year fields consume exactly four
digits; month, day, minute and second fields exactly two; the hour field
one or two; every format must consume the whole input; month, day (against
the month length), hour, minute and second are range-checked. -/

/-- Consume exactly two decimal digits. -/
def num2 : GoStr → Option (Nat × GoStr)
  | c1 :: c2 :: rest =>
    if c1.isDigit ∧ c2.isDigit then
      some ((c1.toNat - 48) * 10 + (c2.toNat - 48), rest)
    else none
  | _ => none

/-- Consume exactly four decimal digits (a `2006` year field). -/
def num4 : GoStr → Option (Nat × GoStr)
  | c1 :: c2 :: c3 :: c4 :: rest =>
    if c1.isDigit ∧ c2.isDigit ∧ c3.isDigit ∧ c4.isDigit then
      some (((c1.toNat - 48) * 10 + (c2.toNat - 48)) * 100 +
        ((c3.toNat - 48) * 10 + (c4.toNat - 48)), rest)
    else none
  | _ => none

/-- Consume one or two decimal digits (a `15` hour field: Go parses it
with `getnum(value, false)`, accepting a single digit). -/
def num1or2 : GoStr → Option (Nat × GoStr)
  | c1 :: c2 :: rest =>
    if c1.isDigit then
      if c2.isDigit then some ((c1.toNat - 48) * 10 + (c2.toNat - 48), rest)
      else some (c1.toNat - 48, c2 :: rest)
    else none
  | [c1] => if c1.isDigit then some (c1.toNat - 48, []) else none
  | [] => none

/-- Consume one expected literal character. -/
def litChar (c : Char) : GoStr → Option GoStr
  | d :: rest => if d = c then some rest else none
  | [] => none

/-- Range checks Go `time.Parse` applies to parsed components
(month 1–12, day within the month, hour 0–23, minute and second 0–59). -/
def mkParsedDate (y mo d h mi s : Nat) : Option GoTime :=
  if 1 ≤ mo ∧ mo ≤ 12 ∧ 1 ≤ d ∧ d ≤ daysInMonth (Int.ofNat y) mo ∧
      h ≤ 23 ∧ mi ≤ 59 ∧ s ≤ 59 then
    some ⟨Int.ofNat y, mo, d, h, mi, s⟩
  else none

/-- Parse the `YYYY-MM-DD` date part shared by the first five layouts. -/
def parseDatePart (s : GoStr) : Option (Nat × Nat × Nat × GoStr) :=
  match num4 s with
  | none => none
  | some (y, s1) =>
    match litChar '-' s1 with
    | none => none
    | some s2 =>
      match num2 s2 with
      | none => none
      | some (mo, s3) =>
        match litChar '-' s3 with
        | none => none
        | some s4 =>
          match num2 s4 with
          | none => none
          | some (d, s5) => some (y, mo, d, s5)

/-- Parse an `hh:mm:ss` clock part. -/
def parseClockSec (s : GoStr) : Option (Nat × Nat × Nat × GoStr) :=
  match num1or2 s with
  | none => none
  | some (h, s1) =>
    match litChar ':' s1 with
    | none => none
    | some s2 =>
      match num2 s2 with
      | none => none
      | some (mi, s3) =>
        match litChar ':' s3 with
        | none => none
        | some s4 =>
          match num2 s4 with
          | none => none
          | some (sec, s5) => some (h, mi, sec, s5)

/-- Parse an `hh:mm` clock part. -/
def parseClockMin (s : GoStr) : Option (Nat × Nat × GoStr) :=
  match num1or2 s with
  | none => none
  | some (h, s1) =>
    match litChar ':' s1 with
    | none => none
    | some s2 =>
      match num2 s2 with
      | none => none
      | some (mi, s3) => some (h, mi, s3)

/-- Optional fractional-seconds suffix accepted after a seconds field:
a dot followed by at least one digit. -/
def skipFrac : GoStr → GoStr
  | '.' :: c :: rest =>
    if c.isDigit then (c :: rest).dropWhile Char.isDigit else '.' :: c :: rest
  | s => s

/-- The `Z07:00` timezone field of RFC 3339: `Z`, or a signed `hh:mm`
offset with hours at most 23 and minutes at most 59. -/
def parseZone : GoStr → Option GoStr
  | 'Z' :: rest => some rest
  | c :: rest =>
    if c = '+' ∨ c = '-' then
      match num2 rest with
      | none => none
      | some (zh, s1) =>
        match litChar ':' s1 with
        | none => none
        | some s2 =>
          match num2 s2 with
          | none => none
          | some (zm, s3) => if zh ≤ 23 ∧ zm ≤ 59 then some s3 else none
    else none
  | [] => none

/-- Layout `time.RFC3339` (`2006-01-02T15:04:05Z07:00`); the resulting
components are those written in the input (Go reports components in the
parsed offset's zone). -/
def parseRFC3339 (s : GoStr) : Option GoTime :=
  match parseDatePart s with
  | none => none
  | some (y, mo, d, s1) =>
    match litChar 'T' s1 with
    | none => none
    | some s2 =>
      match parseClockSec s2 with
      | none => none
      | some (h, mi, sec, s3) =>
        match parseZone (skipFrac s3) with
        | none => none
        | some s4 => if s4 = [] then mkParsedDate y mo d h mi sec else none

/-- Layout `2006-01-02T15:04:05`. -/
def parseDateTimeSecT (s : GoStr) : Option GoTime :=
  match parseDatePart s with
  | none => none
  | some (y, mo, d, s1) =>
    match litChar 'T' s1 with
    | none => none
    | some s2 =>
      match parseClockSec s2 with
      | none => none
      | some (h, mi, sec, s3) => if s3 = [] then mkParsedDate y mo d h mi sec else none

/-- Layout `2006-01-02 15:04:05`. -/
def parseDateTimeSecSpace (s : GoStr) : Option GoTime :=
  match parseDatePart s with
  | none => none
  | some (y, mo, d, s1) =>
    match litChar ' ' s1 with
    | none => none
    | some s2 =>
      match parseClockSec s2 with
      | none => none
      | some (h, mi, sec, s3) => if s3 = [] then mkParsedDate y mo d h mi sec else none

/-- Layout `2006-01-02T15:04`. -/
def parseDateTimeMinT (s : GoStr) : Option GoTime :=
  match parseDatePart s with
  | none => none
  | some (y, mo, d, s1) =>
    match litChar 'T' s1 with
    | none => none
    | some s2 =>
      match parseClockMin s2 with
      | none => none
      | some (h, mi, s3) => if s3 = [] then mkParsedDate y mo d h mi 0 else none

/-- Layout `2006-01-02`. -/
def parseDateOnly (s : GoStr) : Option GoTime :=
  match parseDatePart s with
  | none => none
  | some (y, mo, d, s1) => if s1 = [] then mkParsedDate y mo d 0 0 0 else none

/-- Layout `15:04:05`; the date defaults to January 1 of year 0, as for
a Go layout without date fields. -/
def parseTimeSec (s : GoStr) : Option GoTime :=
  match parseClockSec s with
  | none => none
  | some (h, mi, sec, s1) => if s1 = [] then mkParsedDate 0 1 1 h mi sec else none

/-- Layout `15:04`. -/
def parseTimeMin (s : GoStr) : Option GoTime :=
  match parseClockMin s with
  | none => none
  | some (h, mi, s1) => if s1 = [] then mkParsedDate 0 1 1 h mi 0 else none

/-- Model of `timestamp.ParseDate`: try the seven formats in order and
take the first success; for the two time-only formats, re-combine the
parsed clock with the current local date via `time.Date` (the source
reads `time.Now()` once; it is passed here as `now`). -/
def ParseDate (now : GoTime) (s : GoStr) : Except ParseErr GoTime :=
  match parseRFC3339 s with
  | some t => .ok t
  | none =>
    match parseDateTimeSecT s with
    | some t => .ok t
    | none =>
      match parseDateTimeSecSpace s with
      | some t => .ok t
      | none =>
        match parseDateTimeMinT s with
        | some t => .ok t
        | none =>
          match parseDateOnly s with
          | some t => .ok t
          | none =>
            match parseTimeSec s with
            | some t =>
              .ok (GoDate now.year now.month now.day t.hour t.minute t.second)
            | none =>
              match parseTimeMin s with
              | some t =>
                .ok (GoDate now.year now.month now.day t.hour t.minute t.second)
              | none => .error .unsupportedDateFormat

/-! ## TouchEngine: `internal/core/touch.go` and its capabilities -/

/-- Change-mask bit flags of `internal/core/touch.go`. -/
def ChAtime : Nat := 1

/-- Flag to change modification time. -/
def ChMtime : Nat := 2

/-- The observable timestamp metadata of one file. -/
structure FileMeta where
  atime : GoTime
  mtime : GoTime
  deriving DecidableEq, Repr

/-- Result of a `Stat` on one path: the file may be absent
(`os.ErrNotExist`), present with metadata, or `Stat` may fail with some
other error (e.g. permission denied). -/
inductive PathState where
  | absent
  | present (meta : FileMeta)
  | statError
  deriving DecidableEq, Repr

/-- The filesystem capability (`filesystem.Default`), as a functional
state.  `paths` is the `Stat` (follow-symlinks) view and `lstatPaths`
the `Lstat` view; `createFails` and `chtimesFails` inject failures of
`Create` and `Chtimes`; `creationMeta` is the metadata a freshly created
file receives (the clock at creation time). -/
structure FS where
  paths : GoStr → PathState
  lstatPaths : GoStr → PathState
  createFails : GoStr → Bool
  chtimesFails : GoStr → Bool
  creationMeta : FileMeta

/-- Update the `Stat` view of one path (the effect of `Create` and
`Chtimes`). -/
def FS.setMeta (fs : FS) (p : GoStr) (m : FileMeta) : FS :=
  { fs with paths := fun q => if q = p then .present m else fs.paths q }

/-- The platform capability (`internal/platform`): `GetAtime` reads the
access time from stat metadata (the Unix builds read `Atim`, the
fallback returns the modification time); `SetTimesNoDeref` is supported
on some platforms only, and may itself fail per path. -/
structure Platform where
  getAtime : FileMeta → GoTime
  noDerefSupported : Bool
  noDerefFails : GoStr → Bool

/-- The Unix `GetAtime`: reads the access time from the metadata. -/
def unixGetAtime : FileMeta → GoTime := fun m => m.atime

/-- Per-file errors of `core.Touch`, mirroring its wrapped error
messages. -/
inductive TouchErr where
  | createFile (file : GoStr)
  | chtimesNewFile (file : GoStr)
  | statFile (file : GoStr)
  | setTimesNoDeref (file : GoStr)
  | chtimes (file : GoStr)
  deriving DecidableEq, Repr

/-- Model of `core.Touch`: stat the path; create-and-set on `not found`
(unless `noCreate`); otherwise substitute the unselected dimensions with
the file's current values and apply via the no-dereference platform
write or the ordinary `Chtimes`. -/
def Touch (plat : Platform) (fs : FS) (file : GoStr) (change : Nat)
    (noCreate noDeref : Bool) (accessTimeParam modTimeParam : GoTime) :
    FS × Except TouchErr Unit :=
  match fs.paths file with
  | .absent =>
    if noCreate then (fs, .ok ())
    else if fs.createFails file then (fs, .error (.createFile file))
    else
      let fs1 := fs.setMeta file fs.creationMeta
      if fs1.chtimesFails file then (fs1, .error (.chtimesNewFile file))
      else (fs1.setMeta file ⟨accessTimeParam, modTimeParam⟩, .ok ())
  | .statError => (fs, .error (.statFile file))
  | .present meta =>
    let accessTime := if change &&& ChAtime == 0 then plat.getAtime meta else accessTimeParam
    let modTime := if change &&& ChMtime == 0 then meta.mtime else modTimeParam
    if noDeref then
      if plat.noDerefSupported ∧ ¬plat.noDerefFails file then
        (fs.setMeta file ⟨accessTime, modTime⟩, .ok ())
      else (fs, .error (.setTimesNoDeref file))
    else if fs.chtimesFails file then (fs, .error (.chtimes file))
    else (fs.setMeta file ⟨accessTime, modTime⟩, .ok ())

/-! ## TimeResolver: `calculateTimestamps` and `GetTimesFromRef` -/

/-- Errors of the resolution and CLI layer. -/
inductive RunErr where
  | invalidTimeArg
  | multipleTimeSources
  | getReferenceTimes
  | parsePosixStamp (e : ParseErr)
  | parseDate (e : ParseErr)
  | missingOperands
  | processingFiles
  deriving DecidableEq, Repr

/-- Model of `timestamp.GetTimesFromRef`: stat (or lstat, when
`noDeref`) the reference file; on success the pair is the platform
access time and the stat modification time. -/
def GetTimesFromRef (plat : Platform) (fs : FS) (refFilePath : GoStr)
    (noDeref : Bool) : Except RunErr (GoTime × GoTime) :=
  match (if noDeref then fs.lstatPaths refFilePath else fs.paths refFilePath) with
  | .present meta => .ok (plat.getAtime meta, meta.mtime)
  | _ => .error .getReferenceTimes

/-- Advisory line written for obsolete usage:
`warning: 'touch <arg>' is obsolete; use 'touch -t'`. -/
def obsoleteWarning (arg : GoStr) : GoStr :=
  ( "warning: 'touch ".toList) ++ arg ++ ( "' is obsolete; use 'touch -t'".toList)

/-- Model of `cli.calculateTimestamps`.  The Go function drives a
`dateSet` flag through a source switch, an obsolete-usage fallback and a
final default; here the same control flow is rendered as a chain (each
branch of the switch either returns an error or fixes the pair and skips
the rest).  `posixlyCorrect` models `os.Getenv("POSIXLY_CORRECT") != ""`,
`currentYear` and `now` model the clock reads, and the last component of
the result is the list of stderr lines emitted. -/
def calculateTimestamps (plat : Platform) (fs : FS) (posixlyCorrect : Bool)
    (currentYear : Int) (now : GoTime) (noDeref : Bool)
    (refFilePath tStamp dateStr : GoStr) (files : List GoStr) :
    Except RunErr (GoTime × GoTime × List GoStr × List GoStr) :=
  if refFilePath ≠ [] then
    match GetTimesFromRef plat fs refFilePath noDeref with
    | .error e => .error e
    | .ok (a, m) => .ok (a, m, files, [])
  else if tStamp ≠ [] then
    match ParsePosixTime currentYear tStamp with
    | .error e => .error (.parsePosixStamp e)
    | .ok t => .ok (t, t, files, [])
  else if dateStr ≠ [] then
    match ParseDate now dateStr with
    | .error e => .error (.parseDate e)
    | .ok t => .ok (t, t, files, [])
  else
    match files with
    | [] => .ok (now, now, [], [])
    | f :: rest =>
      match ParsePosixTime currentYear f with
      | .ok t =>
        .ok (t, t, rest, if posixlyCorrect then [] else [obsoleteWarning f])
      | .error _ => .ok (now, now, f :: rest, [])

/-! ## CLI flag processing: `process_flags.go` (both revisions) -/

/-- The recognized command-line flags, already parsed by Cobra. -/
structure Flags where
  access : Bool
  modification : Bool
  timeFlag : GoStr
  noCreate : Bool
  noDereference : Bool
  reference : GoStr
  stamp : GoStr
  date : GoStr

/-- Model of `core.BoolToInt`. -/
def BoolToInt (b : Bool) : Nat := if b then 1 else 0

/-- The Windows warning line emitted when `-h` is requested there. -/
def winWarnLine : GoStr :=
  ( "Warning: -h/--no-dereference is not supported on Windows; symlinks will be followed".toList)

/-- The processed flag values returned by `processFlags` (the Go
function's multiple return values). -/
structure FlagsResult where
  changeTimes : Nat
  noCreate : Bool
  noDeref : Bool
  refFilePath : GoStr
  tStamp : GoStr
  dateStr : GoStr
  deriving DecidableEq, Repr

/-- The `--time` switch of the first `processFlags` revision: a
non-empty `--time` value selects the mask (or errors); otherwise the
`-a`/`-m` booleans do, defaulting to both. -/
def changeMask1 (f : Flags) : Except RunErr Nat :=
  if f.timeFlag ≠ [] then
    let lw := f.timeFlag.map Char.toLower
    if lw = ( "access".toList) ∨ lw = ( "atime".toList) ∨ lw = ( "use".toList) then
      .ok ChAtime
    else if lw = ( "modify".toList) ∨ lw = ( "mtime".toList) then .ok ChMtime
    else .error .invalidTimeArg
  else if f.access ∧ ¬f.modification then .ok ChAtime
  else if f.modification ∧ ¬f.access then .ok ChMtime
  else .ok (ChAtime ||| ChMtime)

/-- The mask computation of the second `processFlags` revision: OR the
`-a`/`-m` bits, let a non-empty `--time` override them (or error);
a zero mask becomes both bits afterwards. -/
def changeMask2 (f : Flags) : Except RunErr Nat :=
  if f.timeFlag ≠ [] then
    let lw := f.timeFlag.map Char.toLower
    if lw = ( "access".toList) ∨ lw = ( "atime".toList) ∨ lw = ( "use".toList) then
      .ok ChAtime
    else if lw = ( "modify".toList) ∨ lw = ( "mtime".toList) then .ok ChMtime
    else .error .invalidTimeArg
  else .ok ((if f.access then ChAtime else 0) ||| (if f.modification then ChMtime else 0))

/-- Model of the first revision of `cli.processFlags`: validate `--time`
(falling back to the `-a`/`-m` switch), then the no-dereference Windows
downgrade, then the time-source exclusivity check.  `goos` models
`runtime.GOOS`; the second component is the list of stderr lines. -/
def processFlags (goos : GoStr) (f : Flags) :
    Except RunErr FlagsResult × List GoStr :=
  match changeMask1 f with
  | .error e => (.error e, [])
  | .ok changeTimes =>
    let winActive := f.noDereference ∧ goos = ( "windows".toList)
    let noDeref := if winActive then false else f.noDereference
    let warns := if winActive then [winWarnLine] else []
    if BoolToInt (f.reference ≠ []) + BoolToInt (f.stamp ≠ []) +
        BoolToInt (f.date ≠ []) > 1 then
      (.error .multipleTimeSources, warns)
    else
      (.ok ⟨changeTimes, f.noCreate, noDeref, f.reference, f.stamp, f.date⟩, warns)

/-- Model of the second revision of `cli.processFlags`: Windows
downgrade first, then the mask from `-a`/`-m` ORs overridden by a
non-empty `--time`, defaulting to both when zero, then the exclusivity
check. -/
def processFlagsAlt (goos : GoStr) (f : Flags) :
    Except RunErr FlagsResult × List GoStr :=
  let winActive := f.noDereference ∧ goos = ( "windows".toList)
  let noDeref := if winActive then false else f.noDereference
  let warns := if winActive then [winWarnLine] else []
  match changeMask2 f with
  | .error e => (.error e, warns)
  | .ok m1 =>
    let changeTimes := if m1 = 0 then ChAtime ||| ChMtime else m1
    if BoolToInt (f.reference ≠ []) + BoolToInt (f.date ≠ []) +
        BoolToInt (f.stamp ≠ []) > 1 then
      (.error .multipleTimeSources, warns)
    else
      (.ok ⟨changeTimes, f.noCreate, noDeref, f.reference, f.stamp, f.date⟩, warns)

/-! ## Dispatcher: `cli.applyToFiles` and `cli.RunTouch`

The Go dispatcher launches one goroutine per file; the files are
independent (each goroutine owns one path) and the shared failure flag
is monotonic, so the observable outcome is modelled by processing the
list in order.  Each stderr line `touch: <quoted file>: <error>` is
modelled by the path it names. -/

/-- The per-file loop body of `applyToFiles`: run `core.Touch` on every
file, collect one diagnostic entry per failure, and record whether any
failure occurred. -/
def touchLoop (plat : Platform) (change : Nat) (noCreate noDeref : Bool)
    (a m : GoTime) : FS → List GoStr → FS × List GoStr × Bool
  | fs, [] => (fs, [], false)
  | fs, f :: rest =>
    let r := Touch plat fs f change noCreate noDeref a m
    let t := touchLoop plat change noCreate noDeref a m r.1 rest
    match r.2 with
    | .ok _ => t
    | .error _ => (t.1, f :: t.2.1, true)

/-- Model of `cli.applyToFiles`: the loop above followed by the
aggregate `ErrProcessingFiles` decision on the shared failure flag. -/
def applyToFiles (plat : Platform) (fs : FS) (change : Nat)
    (noCreate noDeref : Bool) (a m : GoTime) (files : List GoStr) :
    FS × List GoStr × Except RunErr Unit :=
  let t := touchLoop plat change noCreate noDeref a m fs files
  (t.1, t.2.1, if t.2.2 then .error .processingFiles else .ok ())

/-- The filesystem state after touching every file in order, ignoring
per-file failures (companion definition used to state that a failing
file never prevents the remaining files from being processed). -/
def touchFold (plat : Platform) (change : Nat) (noCreate noDeref : Bool)
    (a m : GoTime) : FS → List GoStr → FS
  | fs, [] => fs
  | fs, f :: rest =>
    touchFold plat change noCreate noDeref a m
      (Touch plat fs f change noCreate noDeref a m).1 rest

/-- The files whose `core.Touch` call fails, in order (companion
definition for the diagnostic stream). -/
def failedFiles (plat : Platform) (change : Nat) (noCreate noDeref : Bool)
    (a m : GoTime) : FS → List GoStr → List GoStr
  | _, [] => []
  | fs, f :: rest =>
    let r := Touch plat fs f change noCreate noDeref a m
    match r.2 with
    | .ok _ => failedFiles plat change noCreate noDeref a m r.1 rest
    | .error _ => f :: failedFiles plat change noCreate noDeref a m r.1 rest

/-- Model of `cli.RunTouch`: process flags, re-check the Windows
warning, resolve timestamps, fail on missing operands, and fan out.
Returns the final filesystem, all stderr lines in order, and the
outcome. -/
def RunTouch (plat : Platform) (fs : FS) (goos : GoStr) (posixlyCorrect : Bool)
    (currentYear : Int) (now : GoTime) (f : Flags) (args : List GoStr) :
    FS × List GoStr × Except RunErr Unit :=
  match processFlags goos f with
  | (.error e, w) => (fs, w, .error e)
  | (.ok r, w) =>
    let w2 := w ++ (if r.noDeref ∧ goos = ( "windows".toList) then [winWarnLine] else [])
    match calculateTimestamps plat fs posixlyCorrect currentYear now r.noDeref
        r.refFilePath r.tStamp r.dateStr args with
    | .error e => (fs, w2, .error e)
    | .ok (a, m, files, w3) =>
      if files = [] then (fs, w2 ++ w3, .error .missingOperands)
      else
        let res := applyToFiles plat fs r.changeTimes r.noCreate r.noDeref a m files
        (res.1, w2 ++ w3 ++ res.2.1, res.2.2)

/-! ## Calendar and normalization lemmas -/

/-- Every month slot has at least 28 days. -/
theorem daysInMonth_ge (y : Int) (m : Nat) : 28 ≤ daysInMonth y m := by
  unfold daysInMonth
  split
  · split <;> omega
  · split <;> omega

/-- December has 31 days. -/
theorem daysInMonth_dec (y : Int) : daysInMonth y 12 = 31 := by
  unfold daysInMonth
  norm_num

/-- A day count within the month is left unchanged by the rollover. -/
theorem rollDays_of_le (fuel : Nat) (y : Int) (m d : Nat)
    (h : d ≤ daysInMonth y m) : rollDays (fuel + 1) y m d = (y, m, d) := by
  unfold rollDays
  simp [h]

/-- The rollover never leaves the year when the day count is at most 31
and the month is a real month. -/
theorem rollDays_fst (y : Int) (m d : Nat) (_hm2 : m ≤ 12) (hd : d ≤ 31) :
    (rollDays (d + 1) y m d).1 = y := by
  by_cases hle : d ≤ daysInMonth y m
  · rw [rollDays_of_le _ _ _ _ hle]
  · have h28 := daysInMonth_ge y m
    have hm12 : m ≠ 12 := by
      intro h
      rw [h, daysInMonth_dec] at hle
      omega
    have hd1 : 29 ≤ d := by omega
    obtain ⟨d', rfl⟩ : ∃ d', d = d' + 1 := ⟨d - 1, by omega⟩
    have hsub : d' + 1 - daysInMonth y m ≤ daysInMonth y (m + 1) := by
      have := daysInMonth_ge y (m + 1)
      omega
    unfold rollDays
    simp only [hle, if_neg, hm12, if_false]
    rw [rollDays_of_le d' y (m + 1) (d' + 1 - daysInMonth y m) hsub]

/-- On calendar-valid components with no seconds overflow, `GoDate` is
the identity embedding. -/
theorem GoDate_valid (y : Int) (mo d h mi s : Nat)
    (hd : d ≤ daysInMonth y mo) (hh : h ≤ 23) (hmi : mi ≤ 59) (hs : s ≤ 59) :
    GoDate y mo d h mi s = ⟨y, mo, d, h, mi, s⟩ := by
  unfold GoDate
  have e1 : s / 60 = 0 := Nat.div_eq_of_lt (by omega)
  have e2 : s % 60 = s := Nat.mod_eq_of_lt (by omega)
  have e3 : mi / 60 = 0 := Nat.div_eq_of_lt (by omega)
  have e4 : mi % 60 = mi := Nat.mod_eq_of_lt (by omega)
  have e5 : h / 24 = 0 := Nat.div_eq_of_lt (by omega)
  have e6 : h % 24 = h := Nat.mod_eq_of_lt (by omega)
  simp only [e1, e2, Nat.add_zero, e3, e4, e5, e6]
  rw [rollDays_of_le _ _ _ _ hd]

/-- With no time-of-day overflow, the year `GoDate` reports is the year
passed in, for any day in 1–31. -/
theorem GoDate_year (y : Int) (mo d h mi : Nat) (hm2 : mo ≤ 12)
    (hd : d ≤ 31) (hh : h ≤ 23) (hmi : mi ≤ 59) :
    (GoDate y mo d h mi 0).year = y := by
  unfold GoDate
  have e3 : mi / 60 = 0 := Nat.div_eq_of_lt (by omega)
  have e5 : h / 24 = 0 := Nat.div_eq_of_lt (by omega)
  simp only [Nat.zero_div, Nat.add_zero, e3, e5]
  exact rollDays_fst y mo d hm2 hd

/-! ## Claim C1: Touch on a missing path -/

/-- C1: for a path whose stat reports `not found`: with `noCreate` the
call is a silent no-op (no file created, no times written, success);
without it, when the create and set-times calls succeed, an empty file
is created and both its access and modification times are set to the
resolved pair, regardless of the change mask, touching no other path. -/
theorem touch_missing_noop_or_create (plat : Platform) (fs : FS) (file : GoStr)
    (change : Nat) (noCreate noDeref : Bool) (a m : GoTime)
    (habs : fs.paths file = .absent) :
    (noCreate = true →
      Touch plat fs file change noCreate noDeref a m = (fs, .ok ())) ∧
    (noCreate = false → fs.createFails file = false → fs.chtimesFails file = false →
      (Touch plat fs file change noCreate noDeref a m).2 = .ok () ∧
      (Touch plat fs file change noCreate noDeref a m).1.paths file = .present ⟨a, m⟩ ∧
      ∀ q, q ≠ file →
        (Touch plat fs file change noCreate noDeref a m).1.paths q = fs.paths q) := by
  constructor
  · intro hnc
    subst hnc
    simp [Touch, habs]
  · intro hnc hcf hch
    subst hnc
    refine ⟨by simp [Touch, habs, hcf, hch, FS.setMeta], by simp [Touch, habs, hcf, hch, FS.setMeta], ?_⟩
    intro q hq
    simp [Touch, habs, hcf, hch, FS.setMeta, hq]

/-- Closed witness for C1 on a concrete missing file. -/
def gt0 : GoTime := ⟨2024, 1, 1, 0, 0, 0⟩

/-- Resolved access time used by the witnesses. -/
def gtA : GoTime := ⟨2025, 7, 13, 14, 30, 0⟩

/-- Resolved modification time used by the witnesses. -/
def gtM : GoTime := ⟨2025, 7, 13, 14, 30, 1⟩

/-- A Unix-like platform capability with no injected failures. -/
def platEx : Platform := ⟨unixGetAtime, true, fun _ => false⟩

/-- A filesystem with no files and no injected failures. -/
def fsMissing : FS :=
  ⟨fun _ => .absent, fun _ => .absent, fun _ => false, fun _ => false, ⟨gt0, gt0⟩⟩

/-- Witness for C1: on the empty filesystem, `noCreate` leaves
everything untouched, and creation sets exactly the resolved pair. -/
theorem touch_missing_noop_or_create_witness :
    (Touch platEx fsMissing ( "f".toList) 3 true false gtA gtM = (fsMissing, .ok ())) ∧
    ((Touch platEx fsMissing ( "f".toList) 3 false false gtA gtM).2 = .ok () ∧
      (Touch platEx fsMissing ( "f".toList) 3 false false gtA gtM).1.paths ( "f".toList) =
        .present ⟨gtA, gtM⟩ ∧
      (Touch platEx fsMissing ( "f".toList) 3 false false gtA gtM).1.paths ( "g".toList) =
        fsMissing.paths ( "g".toList)) := by
  have h1 := touch_missing_noop_or_create platEx fsMissing ( "f".toList) 3 true false gtA gtM rfl
  have h2 := touch_missing_noop_or_create platEx fsMissing ( "f".toList) 3 false false gtA gtM rfl
  exact ⟨h1.1 rfl, (h2.2 rfl rfl rfl).1, (h2.2 rfl rfl rfl).2.1,
    (h2.2 rfl rfl rfl).2.2 ( "g".toList) (by decide)⟩

/-! ## Claim C2: Touch on an existing file preserves unselected times -/

/-- C2: on an existing file, whenever `Touch` succeeds, each of the two
time dimensions not selected by the change mask is written back with the
file's current value — the access time via the platform read, the
modification time via the stat result — and with mask `ChAtime` only the
access time takes the resolved value while the modification time is
exactly the file's previous one. -/
theorem touch_existing_mask (plat : Platform) (fs : FS) (file : GoStr)
    (change : Nat) (noCreate noDeref : Bool) (a m : GoTime) (meta : FileMeta)
    (hpres : fs.paths file = .present meta)
    (hok : (Touch plat fs file change noCreate noDeref a m).2 = .ok ()) :
    (Touch plat fs file change noCreate noDeref a m).1.paths file =
      .present ⟨(if change &&& ChAtime == 0 then plat.getAtime meta else a),
        (if change &&& ChMtime == 0 then meta.mtime else m)⟩ ∧
    (change = ChAtime →
      (Touch plat fs file change noCreate noDeref a m).1.paths file =
        .present ⟨a, meta.mtime⟩) := by
  have hmain : (Touch plat fs file change noCreate noDeref a m).1.paths file =
      .present ⟨(if change &&& ChAtime == 0 then plat.getAtime meta else a),
        (if change &&& ChMtime == 0 then meta.mtime else m)⟩ := by
    simp only [Touch, hpres] at hok ⊢
    split at hok
    · split at hok
      · simp_all [FS.setMeta]
      · simp at hok
    · split at hok
      · simp at hok
      · simp_all [FS.setMeta]
  refine ⟨hmain, ?_⟩
  intro hch
  subst hch
  rw [hmain]
  norm_num [ChAtime, ChMtime]

/-- A filesystem holding one file `f` with known previous times. -/
def fsExisting : FS :=
  ⟨fun p => if p = ( "f".toList) then .present ⟨gt0, gtM⟩ else .absent,
    fun _ => .absent, fun _ => false, fun _ => false, ⟨gt0, gt0⟩⟩

/-- Witness for C2: touching the existing file with mask `Access` only
keeps its previous modification time and sets its access time. -/
theorem touch_existing_mask_witness :
    (Touch platEx fsExisting ( "f".toList) ChAtime false false gtA ⟨2030, 1, 1, 1, 1, 1⟩).1.paths
      ( "f".toList) = .present ⟨gtA, gtM⟩ := by
  have h := touch_existing_mask platEx fsExisting ( "f".toList) ChAtime false false gtA
    ⟨2030, 1, 1, 1, 1, 1⟩ ⟨gt0, gtM⟩ rfl rfl
  exact h.2 rfl

/-! ## Claim C9: the dispatcher aggregates failures without early exit -/

/-- The loop of `applyToFiles` computes the full fold of `Touch` over
every file, the ordered list of failing files, and a failure flag that
is set exactly when that list is non-empty. -/
theorem touchLoop_spec (plat : Platform) (change : Nat) (noCreate noDeref : Bool)
    (a m : GoTime) : ∀ (files : List GoStr) (fs : FS),
    touchLoop plat change noCreate noDeref a m fs files =
      (touchFold plat change noCreate noDeref a m fs files,
        failedFiles plat change noCreate noDeref a m fs files,
        !(failedFiles plat change noCreate noDeref a m fs files).isEmpty) := by
  intro files
  induction files with
  | nil => intro fs; rfl
  | cons f rest ih =>
    intro fs
    simp only [touchLoop, touchFold, failedFiles, ih]
    rcases (Touch plat fs f change noCreate noDeref a m).2 with e | u
    · simp
    · simp

/-- C9: the dispatcher returns the aggregate `processing files` error
exactly when at least one per-file `Touch` fails; the diagnostic stream
holds exactly one entry per failing file, in order, naming that file;
and the final filesystem is the one obtained by touching every file in
the list — a failure never prevents the remaining files from being
processed. -/
theorem applyToFiles_spec (plat : Platform) (fs : FS) (change : Nat)
    (noCreate noDeref : Bool) (a m : GoTime) (files : List GoStr) :
    (applyToFiles plat fs change noCreate noDeref a m files).1 =
      touchFold plat change noCreate noDeref a m fs files ∧
    (applyToFiles plat fs change noCreate noDeref a m files).2.1 =
      failedFiles plat change noCreate noDeref a m fs files ∧
    ((applyToFiles plat fs change noCreate noDeref a m files).2.2 =
        .error .processingFiles ↔
      failedFiles plat change noCreate noDeref a m fs files ≠ []) ∧
    ((applyToFiles plat fs change noCreate noDeref a m files).2.2 = .ok () ↔
      failedFiles plat change noCreate noDeref a m fs files = []) := by
  have hts := touchLoop_spec plat change noCreate noDeref a m files fs
  cases hf : failedFiles plat change noCreate noDeref a m fs files with
  | nil => simp [applyToFiles, hts, hf]
  | cons x xs => simp [applyToFiles, hts, hf]

/-- A three-file filesystem: `a` and `c` exist, stat on `b` fails with a
non-not-found error (e.g. permission denied). -/
def fsDispatch : FS :=
  ⟨fun p =>
      if p = ( "a".toList) then .present ⟨gt0, gt0⟩
      else if p = ( "b".toList) then .statError
      else if p = ( "c".toList) then .present ⟨gt0, gt0⟩
      else .absent,
    fun _ => .absent, fun _ => false, fun _ => false, ⟨gt0, gt0⟩⟩

/-- Witness for C9, the spec's dispatcher scenario: of three files
exactly the middle one fails to stat; the run returns the aggregate
error, emits exactly one diagnostic naming that file, and still updates
the other two files to the resolved pair. -/
theorem applyToFiles_spec_witness :
    (applyToFiles platEx fsDispatch 3 false false gtA gtM
        [( "a".toList), ( "b".toList), ( "c".toList)]).2.2 =
      .error .processingFiles ∧
    (applyToFiles platEx fsDispatch 3 false false gtA gtM
        [( "a".toList), ( "b".toList), ( "c".toList)]).2.1 = [( "b".toList)] ∧
    (applyToFiles platEx fsDispatch 3 false false gtA gtM
        [( "a".toList), ( "b".toList), ( "c".toList)]).1.paths ( "a".toList) =
      .present ⟨gtA, gtM⟩ ∧
    (applyToFiles platEx fsDispatch 3 false false gtA gtM
        [( "a".toList), ( "b".toList), ( "c".toList)]).1.paths ( "c".toList) =
      .present ⟨gtA, gtM⟩ := by
  have h := applyToFiles_spec platEx fsDispatch 3 false false gtA gtM
    [( "a".toList), ( "b".toList), ( "c".toList)]
  refine ⟨h.2.2.1.mpr (by decide), ?_, ?_, ?_⟩
  · rw [h.2.1]
    decide
  · rw [h.1]
    decide
  · rw [h.1]
    decide

/-! ## Claim C10: both `-a` and `-m` give the full mask -/

/-- C10: with both the access and modification flags set and no `--time`
value, flag processing (in both revisions) accepts the combination and
returns the full change mask `ChAtime ||| ChMtime = 3`, the same mask as
when neither flag is set. -/
theorem processFlags_both_full_mask (goos : GoStr) (f : Flags)
    (ht : f.timeFlag = [])
    (hsrc : BoolToInt (f.reference ≠ []) + BoolToInt (f.stamp ≠ []) +
      BoolToInt (f.date ≠ []) ≤ 1) :
    (processFlags goos { f with access := true, modification := true }).1.map FlagsResult.changeTimes =
      .ok 3 ∧
    (processFlags goos { f with access := false, modification := false }).1.map FlagsResult.changeTimes =
      .ok 3 ∧
    (processFlagsAlt goos { f with access := true, modification := true }).1.map FlagsResult.changeTimes =
      .ok 3 ∧
    (processFlagsAlt goos { f with access := false, modification := false }).1.map FlagsResult.changeTimes =
      .ok 3 := by
  by_cases h1 : f.reference = [] <;> by_cases h2 : f.stamp = [] <;>
    by_cases h3 : f.date = [] <;>
    simp_all [processFlags, processFlagsAlt, changeMask1, changeMask2, BoolToInt,
      ChAtime, ChMtime, Except.map]

/-- Witness for C10 at a concrete flag record with no time sources. -/
theorem processFlags_both_full_mask_witness :
    (processFlags ( "linux".toList)
      ⟨true, true, [], false, false, [], [], []⟩).1.map FlagsResult.changeTimes = .ok 3 := by
  exact (processFlags_both_full_mask ( "linux".toList)
    ⟨true, true, [], false, false, [], [], []⟩ rfl (by norm_num [BoolToInt])).1

/-! ## Claim C4: time-source exclusivity -/

/-- A flag configuration with two time sources and an invalid `--time`
value. -/
def badFlags : Flags :=
  ⟨false, false, ( "bogus".toList), false, false, ( "r".toList), ( "s".toList), []⟩

/-- Counterexample to C4 as stated: with more than one time source
non-empty but an unrecognized `--time` value, flag processing (in both
revisions) returns the invalid-time-argument error, not the multiple
time sources error — the `--time` validation runs first. -/
theorem processFlags_invalid_time_first :
    BoolToInt (badFlags.reference ≠ []) + BoolToInt (badFlags.stamp ≠ []) +
      BoolToInt (badFlags.date ≠ []) > 1 ∧
    (processFlags ( "linux".toList) badFlags).1 = .error .invalidTimeArg ∧
    (processFlags ( "linux".toList) badFlags).1 ≠ .error .multipleTimeSources ∧
    (processFlagsAlt ( "linux".toList) badFlags).1 = .error .invalidTimeArg := by
  refine ⟨by decide, by decide, by decide, by decide⟩

/-- The `--time` values accepted by flag processing (empty, or one of
the five recognized words after lowercasing). -/
def ValidTimeFlag (t : GoStr) : Prop :=
  t = [] ∨ t.map Char.toLower = ( "access".toList) ∨
    t.map Char.toLower = ( "atime".toList) ∨ t.map Char.toLower = ( "use".toList) ∨
    t.map Char.toLower = ( "modify".toList) ∨ t.map Char.toLower = ( "mtime".toList)

/-- A valid `--time` value makes both mask computations succeed. -/
theorem changeMask_valid (f : Flags) (hv : ValidTimeFlag f.timeFlag) :
    (∃ n, changeMask1 f = .ok n) ∧ ∃ n, changeMask2 f = .ok n := by
  have hne : ∀ w : GoStr, f.timeFlag.map Char.toLower = w → w ≠ [] → f.timeFlag ≠ [] := by
    intro w hw hwne h0
    rw [h0] at hw
    exact hwne hw.symm
  rcases hv with ht | ht | ht | ht | ht | ht
  · constructor
    · cases ha : f.access <;> cases hm : f.modification
      · exact ⟨ChAtime ||| ChMtime, by simp [changeMask1, ht, ha, hm]⟩
      · exact ⟨ChMtime, by simp [changeMask1, ht, ha, hm]⟩
      · exact ⟨ChAtime, by simp [changeMask1, ht, ha, hm]⟩
      · exact ⟨ChAtime ||| ChMtime, by simp [changeMask1, ht, ha, hm]⟩
    · exact ⟨(if f.access then ChAtime else 0) |||
        (if f.modification then ChMtime else 0), by simp [changeMask2, ht]⟩
  · exact ⟨⟨ChAtime, by simp [changeMask1, hne _ ht (by decide), ht]⟩,
      ⟨ChAtime, by simp [changeMask2, hne _ ht (by decide), ht]⟩⟩
  · exact ⟨⟨ChAtime, by simp [changeMask1, hne _ ht (by decide), ht]⟩,
      ⟨ChAtime, by simp [changeMask2, hne _ ht (by decide), ht]⟩⟩
  · exact ⟨⟨ChAtime, by simp [changeMask1, hne _ ht (by decide), ht]⟩,
      ⟨ChAtime, by simp [changeMask2, hne _ ht (by decide), ht]⟩⟩
  · exact ⟨⟨ChMtime, by simp [changeMask1, hne _ ht (by decide), ht]⟩,
      ⟨ChMtime, by simp [changeMask2, hne _ ht (by decide), ht]⟩⟩
  · exact ⟨⟨ChMtime, by simp [changeMask1, hne _ ht (by decide), ht]⟩,
      ⟨ChMtime, by simp [changeMask2, hne _ ht (by decide), ht]⟩⟩

/-- An unrecognized, non-empty `--time` value makes both mask
computations fail with the invalid-time error. -/
theorem changeMask_invalid (f : Flags) (hv : ¬ValidTimeFlag f.timeFlag) :
    changeMask1 f = .error .invalidTimeArg ∧
    changeMask2 f = .error .invalidTimeArg := by
  rw [ValidTimeFlag] at hv
  push_neg at hv
  obtain ⟨h0, h1, h2, h3, h4, h5⟩ := hv
  have hA : ¬(f.timeFlag.map Char.toLower = ( "access".toList) ∨
      f.timeFlag.map Char.toLower = ( "atime".toList) ∨
      f.timeFlag.map Char.toLower = ( "use".toList)) := by
    push_neg
    exact ⟨h1, h2, h3⟩
  have hB : ¬(f.timeFlag.map Char.toLower = ( "modify".toList) ∨
      f.timeFlag.map Char.toLower = ( "mtime".toList)) := by
    push_neg
    exact ⟨h4, h5⟩
  constructor
  · simp only [changeMask1]
    rw [if_pos h0, if_neg hA, if_neg hB]
  · simp only [changeMask2]
    rw [if_pos h0, if_neg hA, if_neg hB]

/-- A flag-processing error makes `RunTouch` return it unchanged,
leaving the filesystem untouched — timestamp resolution is never
attempted. -/
theorem RunTouch_flag_error (plat : Platform) (fs : FS) (goos : GoStr)
    (pc : Bool) (cy : Int) (now : GoTime) (f : Flags) (args : List GoStr)
    (e : RunErr) (he : (processFlags goos f).1 = .error e) :
    (RunTouch plat fs goos pc cy now f args).2.2 = .error e ∧
    (RunTouch plat fs goos pc cy now f args).1 = fs := by
  rcases hpf : processFlags goos f with ⟨r, w⟩
  rw [hpf] at he
  simp only at he
  subst he
  simp [RunTouch, hpf]

/-- C4 (amended): when more than one of reference path, POSIX stamp and
date string is non-empty, flag processing errors before resolution is
ever attempted: with an empty or recognized `--time` value the error is
`multipleTimeSources`, with an unrecognized one it is `invalidTimeArg`
(the `--time` validation runs first); in both cases `RunTouch` returns
that error with the filesystem untouched, so no source is ever silently
chosen. -/
theorem processFlags_exclusivity (goos : GoStr) (f : Flags)
    (hcnt : BoolToInt (f.reference ≠ []) + BoolToInt (f.stamp ≠ []) +
      BoolToInt (f.date ≠ []) > 1) :
    (ValidTimeFlag f.timeFlag →
      (processFlags goos f).1 = .error .multipleTimeSources ∧
      (processFlagsAlt goos f).1 = .error .multipleTimeSources) ∧
    (¬ValidTimeFlag f.timeFlag →
      (processFlags goos f).1 = .error .invalidTimeArg ∧
      (processFlagsAlt goos f).1 = .error .invalidTimeArg) ∧
    ∀ (plat : Platform) (fs : FS) (pc : Bool) (cy : Int) (now : GoTime)
      (args : List GoStr),
      (RunTouch plat fs goos pc cy now f args).1 = fs ∧
      ((RunTouch plat fs goos pc cy now f args).2.2 = .error .multipleTimeSources ∨
        (RunTouch plat fs goos pc cy now f args).2.2 = .error .invalidTimeArg) := by
  have hcnt2 : BoolToInt (f.reference ≠ []) + BoolToInt (f.date ≠ []) +
      BoolToInt (f.stamp ≠ []) > 1 := by omega
  have hvalid : ValidTimeFlag f.timeFlag →
      (processFlags goos f).1 = .error .multipleTimeSources ∧
      (processFlagsAlt goos f).1 = .error .multipleTimeSources := by
    intro hv
    obtain ⟨⟨n1, hn1⟩, ⟨n2, hn2⟩⟩ := changeMask_valid f hv
    constructor
    · simp only [processFlags, hn1]
      rw [if_pos hcnt]
    · simp only [processFlagsAlt, hn2]
      rw [if_pos hcnt2]
  have hinvalid : ¬ValidTimeFlag f.timeFlag →
      (processFlags goos f).1 = .error .invalidTimeArg ∧
      (processFlagsAlt goos f).1 = .error .invalidTimeArg := by
    intro hv
    obtain ⟨hm1, hm2⟩ := changeMask_invalid f hv
    constructor
    · simp only [processFlags, hm1]
    · simp only [processFlagsAlt, hm2]
  refine ⟨hvalid, hinvalid, ?_⟩
  intro plat fs pc cy now args
  by_cases hv : ValidTimeFlag f.timeFlag
  · have h := RunTouch_flag_error plat fs goos pc cy now f args
      .multipleTimeSources (hvalid hv).1
    exact ⟨h.2, .inl h.1⟩
  · have h := RunTouch_flag_error plat fs goos pc cy now f args
      .invalidTimeArg (hinvalid hv).1
    exact ⟨h.2, .inr h.1⟩

/-- Witness for C4 (amended): reference and stamp both set with an
empty `--time` gives the multiple-sources error and an untouched
filesystem. -/
theorem processFlags_exclusivity_witness :
    (processFlags ( "linux".toList)
      ⟨false, false, [], false, false, ( "r".toList), ( "s".toList), []⟩).1 =
      .error .multipleTimeSources ∧
    (RunTouch platEx fsMissing ( "linux".toList) false 2025 gt0
      ⟨false, false, [], false, false, ( "r".toList), ( "s".toList), []⟩
      [( "a".toList)]).1 = fsMissing := by
  have h := processFlags_exclusivity ( "linux".toList)
    ⟨false, false, [], false, false, ( "r".toList), ( "s".toList), []⟩ (by decide)
  exact ⟨(h.1 (.inl rfl)).1, (h.2.2 platEx fsMissing false 2025 gt0 [( "a".toList)]).1⟩

/-! ## Claim C3: obsolete-usage fallback of the resolver -/

/-- C3: with no reference path, POSIX stamp or date string and a
non-empty file list, the resolver interprets the first positional
argument as a POSIX stamp: on success both times are the parsed value,
exactly that argument is removed, and exactly one advisory line is
emitted unless POSIX-strict mode is signalled; on failure the file list
is unchanged and both times are the current time. -/
theorem calculateTimestamps_obsolete (plat : Platform) (fs : FS) (pc : Bool)
    (cy : Int) (now : GoTime) (noDeref : Bool) (f : GoStr) (rest : List GoStr) :
    (∀ t, ParsePosixTime cy f = .ok t →
      calculateTimestamps plat fs pc cy now noDeref [] [] [] (f :: rest) =
        .ok (t, t, rest, if pc then [] else [obsoleteWarning f])) ∧
    (∀ e, ParsePosixTime cy f = .error e →
      calculateTimestamps plat fs pc cy now noDeref [] [] [] (f :: rest) =
        .ok (now, now, f :: rest, [])) := by
  constructor <;> intro x hx <;> simp [calculateTimestamps, hx]

/-- Witness for C3 at the spec's two examples: a leading `2507131430`
is consumed with one advisory, a leading `notastamp` falls through to
the current time with the file list unchanged. -/
theorem calculateTimestamps_obsolete_witness :
    calculateTimestamps platEx fsMissing false 2025 gt0 false [] [] []
      [( "2507131430".toList), ( "a.txt".toList), ( "b.txt".toList)] =
      .ok (⟨2025, 7, 13, 14, 30, 0⟩, ⟨2025, 7, 13, 14, 30, 0⟩,
        [( "a.txt".toList), ( "b.txt".toList)],
        [obsoleteWarning ( "2507131430".toList)]) ∧
    calculateTimestamps platEx fsMissing false 2025 gt0 false [] [] []
      [( "notastamp".toList), ( "a.txt".toList)] =
      .ok (gt0, gt0, [( "notastamp".toList), ( "a.txt".toList)], []) := by
  have h1 := (calculateTimestamps_obsolete platEx fsMissing false 2025 gt0 false
    ( "2507131430".toList) [( "a.txt".toList), ( "b.txt".toList)]).1
    ⟨2025, 7, 13, 14, 30, 0⟩ (by decide)
  have h2 := (calculateTimestamps_obsolete platEx fsMissing false 2025 gt0 false
    ( "notastamp".toList) [( "a.txt".toList)]).2 .invalidPosixLength (by decide)
  exact ⟨h1, h2⟩

/-! ## Rendering POSIX stamps and parsing them back -/

/-- Render a number below 100 as a two-digit zero-padded field. -/
def digits2 (n : Nat) : GoStr :=
  [Char.ofNat (48 + n / 10), Char.ofNat (48 + n % 10)]

/-- Both characters of a rendered field are decimal digits. -/
theorem digits2_isDigit : ∀ n < 100, ∀ c ∈ digits2 n, c.isDigit = true := by decide

/-- Neither character of a rendered field is a dot. -/
theorem digits2_ne_dot : ∀ n < 100, ∀ c ∈ digits2 n, c ≠ '.' := by decide

/-- `Atoi` inverts the rendering of a two-digit field. -/
theorem goAtoi_digits2 : ∀ n < 100, goAtoi (digits2 n) = some (Int.ofNat n) := by decide

/-- A dot-free string splits into itself with no suffix. -/
theorem splitDot_no_dot : ∀ s : GoStr, (∀ c ∈ s, c ≠ '.') → splitDot s = (s, none) := by
  intro s h
  induction s with
  | nil => rfl
  | cons c cs ih =>
    have hc : c ≠ '.' := h c (List.mem_cons_self c cs)
    have ih' := ih fun x hx => h x (List.mem_cons_of_mem c hx)
    simp [splitDot, hc, ih']

/-- Splitting at the first dot of `pre ++ '.' :: suf` recovers the two
parts when `pre` is dot-free. -/
theorem splitDot_pre : ∀ pre suf : GoStr, (∀ c ∈ pre, c ≠ '.') →
    splitDot (pre ++ '.' :: suf) = (pre, some suf) := by
  intro pre
  induction pre with
  | nil =>
    intro suf _
    simp [splitDot]
  | cons c cs ih =>
    intro suf h
    have hc : c ≠ '.' := h c (List.mem_cons_self c cs)
    have ih' := ih suf fun x hx => h x (List.mem_cons_of_mem c hx)
    simp [splitDot, hc, ih']

/-- Every month slot has at most 31 days. -/
theorem daysInMonth_le (y : Int) (m : Nat) : daysInMonth y m ≤ 31 := by
  unfold daysInMonth
  split
  · split <;> omega
  · split <;> omega

/-- `parseYMDHM` on a rendered in-range `MMDDhhmm` body builds the time
via `time.Date`. -/
theorem parseYMDHM_render (year : Int) (mm dd hh mi : Nat) (second : Int)
    (hmm1 : 1 ≤ mm) (hmm2 : mm ≤ 12) (hdd1 : 1 ≤ dd) (hdd2 : dd ≤ 31)
    (hhh : hh ≤ 23) (hmi : mi ≤ 59) (_hs1 : 0 ≤ second) :
    parseYMDHM year (digits2 mm ++ (digits2 dd ++ (digits2 hh ++ digits2 mi))) second =
      .ok (GoDate year mm dd hh mi second.toNat) := by
  have e1 : (digits2 mm ++ (digits2 dd ++ (digits2 hh ++ digits2 mi))).take 2 =
      digits2 mm := rfl
  have e2 : ((digits2 mm ++ (digits2 dd ++ (digits2 hh ++ digits2 mi))).drop 2).take 2 =
      digits2 dd := rfl
  have e3 : ((digits2 mm ++ (digits2 dd ++ (digits2 hh ++ digits2 mi))).drop 4).take 2 =
      digits2 hh := rfl
  have e4 : ((digits2 mm ++ (digits2 dd ++ (digits2 hh ++ digits2 mi))).drop 6).take 2 =
      digits2 mi := rfl
  have gmm := goAtoi_digits2 mm (by omega)
  have gdd := goAtoi_digits2 dd (by omega)
  have ghh := goAtoi_digits2 hh (by omega)
  have gmi := goAtoi_digits2 mi (by omega)
  simp only [parseYMDHM, e1, e2, e3, e4, gmm, gdd, ghh, gmi]
  split_ifs with hcond
  · exfalso
    simp only [Int.ofNat_eq_natCast] at hcond
    omega
  · simp

/-- `ParsePosixTime` on a rendered 12-digit stamp with a seconds suffix. -/
theorem parsePosix12_render (cy : Int) (cc yy mm dd hh mi ss : Nat)
    (hcc : cc < 100) (hyy : yy < 100) (hmm1 : 1 ≤ mm) (hmm2 : mm ≤ 12)
    (hdd1 : 1 ≤ dd) (hdd2 : dd ≤ 31) (hhh : hh ≤ 23) (hmi : mi ≤ 59) (hss : ss ≤ 61) :
    ParsePosixTime cy (digits2 cc ++ (digits2 yy ++ (digits2 mm ++ (digits2 dd ++
      (digits2 hh ++ (digits2 mi ++ ('.' :: digits2 ss))))))) =
      .ok (GoDate (Int.ofNat cc * 100 + Int.ofNat yy) mm dd hh mi ss) := by
  have hnd : ∀ c ∈ digits2 cc ++ (digits2 yy ++ (digits2 mm ++ (digits2 dd ++
      (digits2 hh ++ digits2 mi)))), c ≠ '.' := by
    intro c hcm
    simp only [List.mem_append] at hcm
    rcases hcm with h | h | h | h | h | h
    · exact digits2_ne_dot cc (by omega) c h
    · exact digits2_ne_dot yy (by omega) c h
    · exact digits2_ne_dot mm (by omega) c h
    · exact digits2_ne_dot dd (by omega) c h
    · exact digits2_ne_dot hh (by omega) c h
    · exact digits2_ne_dot mi (by omega) c h
  have hshape : digits2 cc ++ (digits2 yy ++ (digits2 mm ++ (digits2 dd ++
      (digits2 hh ++ (digits2 mi ++ ('.' :: digits2 ss)))))) =
      (digits2 cc ++ (digits2 yy ++ (digits2 mm ++ (digits2 dd ++
        (digits2 hh ++ digits2 mi))))) ++ ('.' :: digits2 ss) := by
    simp [List.append_assoc]
  rw [hshape]
  have hsp := splitDot_pre _ (digits2 ss) hnd
  have hsec : parseSeconds (some (digits2 ss)) = .ok (Int.ofNat ss) := by
    have hga := goAtoi_digits2 ss (by omega)
    simp only [parseSeconds, hga]
    rw [if_neg (by simp [digits2]),
      if_neg (by simp only [Int.ofNat_eq_natCast]; push_neg; omega)]
  have hlen : (digits2 cc ++ (digits2 yy ++ (digits2 mm ++ (digits2 dd ++
      (digits2 hh ++ digits2 mi))))).length = 12 := by
    simp [digits2]
  have e1 : (digits2 cc ++ (digits2 yy ++ (digits2 mm ++ (digits2 dd ++
      (digits2 hh ++ digits2 mi))))).take 2 = digits2 cc := rfl
  have e2 : ((digits2 cc ++ (digits2 yy ++ (digits2 mm ++ (digits2 dd ++
      (digits2 hh ++ digits2 mi))))).drop 2).take 2 = digits2 yy := rfl
  have e3 : (digits2 cc ++ (digits2 yy ++ (digits2 mm ++ (digits2 dd ++
      (digits2 hh ++ digits2 mi))))).drop 4 =
      digits2 mm ++ (digits2 dd ++ (digits2 hh ++ digits2 mi)) := rfl
  have gcc := goAtoi_digits2 cc (by omega)
  have gyy := goAtoi_digits2 yy (by omega)
  simp only [ParsePosixTime, hsp, hsec, hlen, e1, e2, e3, gcc, gyy, reduceIte]
  rw [parseYMDHM_render _ mm dd hh mi _ hmm1 hmm2 hdd1 hdd2 hhh hmi
    (by simp only [Int.ofNat_eq_natCast]; omega)]
  simp

/-- `ParsePosixTime` on a rendered 10-digit stamp (Y2K pivot year). -/
theorem parsePosix10_render (cy : Int) (yy mm dd hh mi : Nat)
    (hyy : yy < 100) (hmm1 : 1 ≤ mm) (hmm2 : mm ≤ 12)
    (hdd1 : 1 ≤ dd) (hdd2 : dd ≤ 31) (hhh : hh ≤ 23) (hmi : mi ≤ 59) :
    ParsePosixTime cy (digits2 yy ++ (digits2 mm ++ (digits2 dd ++
      (digits2 hh ++ digits2 mi)))) =
      .ok (GoDate (1900 + Int.ofNat yy + (if Int.ofNat yy < 69 then 100 else 0))
        mm dd hh mi 0) := by
  have hnd : ∀ c ∈ digits2 yy ++ (digits2 mm ++ (digits2 dd ++
      (digits2 hh ++ digits2 mi))), c ≠ '.' := by
    intro c hcm
    simp only [List.mem_append] at hcm
    rcases hcm with h | h | h | h | h
    · exact digits2_ne_dot yy (by omega) c h
    · exact digits2_ne_dot mm (by omega) c h
    · exact digits2_ne_dot dd (by omega) c h
    · exact digits2_ne_dot hh (by omega) c h
    · exact digits2_ne_dot mi (by omega) c h
  have hsp := splitDot_no_dot _ hnd
  have hlen : (digits2 yy ++ (digits2 mm ++ (digits2 dd ++
      (digits2 hh ++ digits2 mi)))).length = 10 := by
    simp [digits2]
  have e1 : (digits2 yy ++ (digits2 mm ++ (digits2 dd ++
      (digits2 hh ++ digits2 mi)))).take 2 = digits2 yy := rfl
  have e2 : (digits2 yy ++ (digits2 mm ++ (digits2 dd ++
      (digits2 hh ++ digits2 mi)))).drop 2 =
      digits2 mm ++ (digits2 dd ++ (digits2 hh ++ digits2 mi)) := rfl
  have gyy := goAtoi_digits2 yy (by omega)
  simp only [ParsePosixTime, hsp, parseSeconds, hlen, e1, e2, gyy, reduceIte]
  rw [parseYMDHM_render _ mm dd hh mi _ hmm1 hmm2 hdd1 hdd2 hhh hmi le_rfl]
  simp

/-- `ParsePosixTime` on a rendered 8-digit stamp (current year). -/
theorem parsePosix8_render (cy : Int) (mm dd hh mi : Nat)
    (hmm1 : 1 ≤ mm) (hmm2 : mm ≤ 12) (hdd1 : 1 ≤ dd) (hdd2 : dd ≤ 31)
    (hhh : hh ≤ 23) (hmi : mi ≤ 59) :
    ParsePosixTime cy (digits2 mm ++ (digits2 dd ++ (digits2 hh ++ digits2 mi))) =
      .ok (GoDate cy mm dd hh mi 0) := by
  have hnd : ∀ c ∈ digits2 mm ++ (digits2 dd ++ (digits2 hh ++ digits2 mi)), c ≠ '.' := by
    intro c hcm
    simp only [List.mem_append] at hcm
    rcases hcm with h | h | h | h
    · exact digits2_ne_dot mm (by omega) c h
    · exact digits2_ne_dot dd (by omega) c h
    · exact digits2_ne_dot hh (by omega) c h
    · exact digits2_ne_dot mi (by omega) c h
  have hsp := splitDot_no_dot _ hnd
  have hlen : (digits2 mm ++ (digits2 dd ++ (digits2 hh ++ digits2 mi))).length = 8 := by
    simp [digits2]
  simp only [ParsePosixTime, hsp, parseSeconds, hlen, reduceIte]
  rw [parseYMDHM_render _ mm dd hh mi _ hmm1 hmm2 hdd1 hdd2 hhh hmi le_rfl]
  simp

/-- `ParsePosixTime` on a rendered 12-digit stamp without a seconds
suffix. -/
theorem parsePosix12_render_ns (cy : Int) (cc yy mm dd hh mi : Nat)
    (hcc : cc < 100) (hyy : yy < 100) (hmm1 : 1 ≤ mm) (hmm2 : mm ≤ 12)
    (hdd1 : 1 ≤ dd) (hdd2 : dd ≤ 31) (hhh : hh ≤ 23) (hmi : mi ≤ 59) :
    ParsePosixTime cy (digits2 cc ++ (digits2 yy ++ (digits2 mm ++ (digits2 dd ++
      (digits2 hh ++ digits2 mi))))) =
      .ok (GoDate (Int.ofNat cc * 100 + Int.ofNat yy) mm dd hh mi 0) := by
  have hnd : ∀ c ∈ digits2 cc ++ (digits2 yy ++ (digits2 mm ++ (digits2 dd ++
      (digits2 hh ++ digits2 mi)))), c ≠ '.' := by
    intro c hcm
    simp only [List.mem_append] at hcm
    rcases hcm with h | h | h | h | h | h
    · exact digits2_ne_dot cc (by omega) c h
    · exact digits2_ne_dot yy (by omega) c h
    · exact digits2_ne_dot mm (by omega) c h
    · exact digits2_ne_dot dd (by omega) c h
    · exact digits2_ne_dot hh (by omega) c h
    · exact digits2_ne_dot mi (by omega) c h
  have hsp := splitDot_no_dot _ hnd
  have hlen : (digits2 cc ++ (digits2 yy ++ (digits2 mm ++ (digits2 dd ++
      (digits2 hh ++ digits2 mi))))).length = 12 := by
    simp [digits2]
  have e1 : (digits2 cc ++ (digits2 yy ++ (digits2 mm ++ (digits2 dd ++
      (digits2 hh ++ digits2 mi))))).take 2 = digits2 cc := rfl
  have e2 : ((digits2 cc ++ (digits2 yy ++ (digits2 mm ++ (digits2 dd ++
      (digits2 hh ++ digits2 mi))))).drop 2).take 2 = digits2 yy := rfl
  have e3 : (digits2 cc ++ (digits2 yy ++ (digits2 mm ++ (digits2 dd ++
      (digits2 hh ++ digits2 mi))))).drop 4 =
      digits2 mm ++ (digits2 dd ++ (digits2 hh ++ digits2 mi)) := rfl
  have gcc := goAtoi_digits2 cc (by omega)
  have gyy := goAtoi_digits2 yy (by omega)
  simp only [ParsePosixTime, hsp, parseSeconds, hlen, e1, e2, e3, gcc, gyy, reduceIte]
  rw [parseYMDHM_render _ mm dd hh mi _ hmm1 hmm2 hdd1 hdd2 hhh hmi le_rfl]
  simp

/-- `ParsePosixTime` on a rendered 10-digit stamp with a seconds
suffix. -/
theorem parsePosix10_render_s (cy : Int) (yy mm dd hh mi ss : Nat)
    (hyy : yy < 100) (hmm1 : 1 ≤ mm) (hmm2 : mm ≤ 12)
    (hdd1 : 1 ≤ dd) (hdd2 : dd ≤ 31) (hhh : hh ≤ 23) (hmi : mi ≤ 59) (hss : ss ≤ 61) :
    ParsePosixTime cy (digits2 yy ++ (digits2 mm ++ (digits2 dd ++
      (digits2 hh ++ (digits2 mi ++ ('.' :: digits2 ss)))))) =
      .ok (GoDate (1900 + Int.ofNat yy + (if Int.ofNat yy < 69 then 100 else 0))
        mm dd hh mi ss) := by
  have hnd : ∀ c ∈ digits2 yy ++ (digits2 mm ++ (digits2 dd ++
      (digits2 hh ++ digits2 mi))), c ≠ '.' := by
    intro c hcm
    simp only [List.mem_append] at hcm
    rcases hcm with h | h | h | h | h
    · exact digits2_ne_dot yy (by omega) c h
    · exact digits2_ne_dot mm (by omega) c h
    · exact digits2_ne_dot dd (by omega) c h
    · exact digits2_ne_dot hh (by omega) c h
    · exact digits2_ne_dot mi (by omega) c h
  have hshape : digits2 yy ++ (digits2 mm ++ (digits2 dd ++
      (digits2 hh ++ (digits2 mi ++ ('.' :: digits2 ss))))) =
      (digits2 yy ++ (digits2 mm ++ (digits2 dd ++
        (digits2 hh ++ digits2 mi)))) ++ ('.' :: digits2 ss) := by
    simp [List.append_assoc]
  rw [hshape]
  have hsp := splitDot_pre _ (digits2 ss) hnd
  have hsec : parseSeconds (some (digits2 ss)) = .ok (Int.ofNat ss) := by
    have hga := goAtoi_digits2 ss (by omega)
    simp only [parseSeconds, hga]
    rw [if_neg (by simp [digits2]),
      if_neg (by simp only [Int.ofNat_eq_natCast]; push_neg; omega)]
  have hlen : (digits2 yy ++ (digits2 mm ++ (digits2 dd ++
      (digits2 hh ++ digits2 mi)))).length = 10 := by
    simp [digits2]
  have e1 : (digits2 yy ++ (digits2 mm ++ (digits2 dd ++
      (digits2 hh ++ digits2 mi)))).take 2 = digits2 yy := rfl
  have e2 : (digits2 yy ++ (digits2 mm ++ (digits2 dd ++
      (digits2 hh ++ digits2 mi)))).drop 2 =
      digits2 mm ++ (digits2 dd ++ (digits2 hh ++ digits2 mi)) := rfl
  have gyy := goAtoi_digits2 yy (by omega)
  simp only [ParsePosixTime, hsp, hsec, hlen, e1, e2, gyy, reduceIte]
  rw [parseYMDHM_render _ mm dd hh mi _ hmm1 hmm2 hdd1 hdd2 hhh hmi
    (by simp only [Int.ofNat_eq_natCast]; omega)]
  simp

/-- `ParsePosixTime` on a rendered 8-digit stamp with a seconds
suffix. -/
theorem parsePosix8_render_s (cy : Int) (mm dd hh mi ss : Nat)
    (hmm1 : 1 ≤ mm) (hmm2 : mm ≤ 12) (hdd1 : 1 ≤ dd) (hdd2 : dd ≤ 31)
    (hhh : hh ≤ 23) (hmi : mi ≤ 59) (hss : ss ≤ 61) :
    ParsePosixTime cy (digits2 mm ++ (digits2 dd ++
      (digits2 hh ++ (digits2 mi ++ ('.' :: digits2 ss))))) =
      .ok (GoDate cy mm dd hh mi ss) := by
  have hnd : ∀ c ∈ digits2 mm ++ (digits2 dd ++ (digits2 hh ++ digits2 mi)), c ≠ '.' := by
    intro c hcm
    simp only [List.mem_append] at hcm
    rcases hcm with h | h | h | h
    · exact digits2_ne_dot mm (by omega) c h
    · exact digits2_ne_dot dd (by omega) c h
    · exact digits2_ne_dot hh (by omega) c h
    · exact digits2_ne_dot mi (by omega) c h
  have hshape : digits2 mm ++ (digits2 dd ++
      (digits2 hh ++ (digits2 mi ++ ('.' :: digits2 ss)))) =
      (digits2 mm ++ (digits2 dd ++ (digits2 hh ++ digits2 mi))) ++
        ('.' :: digits2 ss) := by
    simp [List.append_assoc]
  rw [hshape]
  have hsp := splitDot_pre _ (digits2 ss) hnd
  have hsec : parseSeconds (some (digits2 ss)) = .ok (Int.ofNat ss) := by
    have hga := goAtoi_digits2 ss (by omega)
    simp only [parseSeconds, hga]
    rw [if_neg (by simp [digits2]),
      if_neg (by simp only [Int.ofNat_eq_natCast]; push_neg; omega)]
  have hlen : (digits2 mm ++ (digits2 dd ++ (digits2 hh ++ digits2 mi))).length = 8 := by
    simp [digits2]
  simp only [ParsePosixTime, hsp, hsec, hlen, reduceIte]
  rw [parseYMDHM_render _ mm dd hh mi _ hmm1 hmm2 hdd1 hdd2 hhh hmi
    (by simp only [Int.ofNat_eq_natCast]; omega)]
  simp

/-- A pre-suffix length outside 8, 10 and 12 always fails. -/
theorem parsePosix_badLength (cy : Int) (s : GoStr)
    (h : ¬((splitDot s).1.length = 12 ∨ (splitDot s).1.length = 10 ∨
      (splitDot s).1.length = 8)) :
    (ParsePosixTime cy s).isOk = false := by
  push_neg at h
  obtain ⟨h12, h10, h8⟩ := h
  rcases hps : parseSeconds (splitDot s).2 with e | v
  · simp [ParsePosixTime, hps, Except.isOk, Except.toBool]
  · simp [ParsePosixTime, hps, h12, h10, h8, Except.isOk, Except.toBool]

/-! ## Claim C5: POSIX stamp round-trip -/

/-- Counterexample to C5 as stated: the stamp `202504310000` has
pre-suffix length 12 and decomposed fields month 4, day 31, hour 0,
minute 0, all within the checked ranges, and parsing succeeds — but
`time.Date` normalizes April 31 forward, so the resulting time's month
is 5 and its day 1, not the parsed 4 and 31. -/
theorem parsePosix_roundtrip_counterexample :
    ParsePosixTime 2025 ( "202504310000".toList) = .ok ⟨2025, 5, 1, 0, 0, 0⟩ ∧
    (splitDot ( "202504310000".toList)).1.length = 12 ∧
    goAtoi (((splitDot ( "202504310000".toList)).1.drop 4).take 2) = some 4 ∧
    goAtoi (((splitDot ( "202504310000".toList)).1.drop 6).take 2) = some 31 ∧
    ((5 : Nat) ≠ 4 ∧ (1 : Nat) ≠ 31) := by
  refine ⟨by decide, by decide, by decide, by decide, by decide, by decide⟩

/-- The optional `[.ss]` suffix of a rendered POSIX stamp. -/
def posixSuffix : Option Nat → GoStr
  | none => []
  | some ss => '.' :: digits2 ss

/-- The seconds value a stamp's optional suffix denotes (zero when
absent). -/
def posixSecondsOf : Option Nat → Nat
  | none => 0
  | some ss => ss

/-- C5 (amended): every valid POSIX stamp — each of the three pre-suffix
lengths, with or without a two-digit seconds suffix in [0,61], month in
[1,12], day in [1,31], hour in [0,23], minute in [0,59] — parses
successfully, to the `time.Date` normalization of its fields; the
resulting components equal the decomposed fields exactly whenever
additionally the seconds value is at most 59 and the day is valid for
the parsed month and year (otherwise seconds 60–61 carry into the next
minute and out-of-month days roll into the next month); any pre-suffix
length outside 8, 10 and 12 errors. -/
theorem parsePosix_roundtrip :
    (∀ (cy : Int) (cc yy mm dd hh mi : Nat) (os : Option Nat), cc < 100 → yy < 100 →
      1 ≤ mm → mm ≤ 12 → 1 ≤ dd → dd ≤ 31 → hh ≤ 23 → mi ≤ 59 →
      (∀ ss, os = some ss → ss ≤ 61) →
      ParsePosixTime cy (digits2 cc ++ (digits2 yy ++ (digits2 mm ++ (digits2 dd ++
        (digits2 hh ++ (digits2 mi ++ posixSuffix os)))))) =
        .ok (GoDate (Int.ofNat cc * 100 + Int.ofNat yy) mm dd hh mi
          (posixSecondsOf os)) ∧
      (posixSecondsOf os ≤ 59 →
        dd ≤ daysInMonth (Int.ofNat cc * 100 + Int.ofNat yy) mm →
        ParsePosixTime cy (digits2 cc ++ (digits2 yy ++ (digits2 mm ++ (digits2 dd ++
          (digits2 hh ++ (digits2 mi ++ posixSuffix os)))))) =
          .ok ⟨Int.ofNat cc * 100 + Int.ofNat yy, mm, dd, hh, mi,
            posixSecondsOf os⟩)) ∧
    (∀ (cy : Int) (yy mm dd hh mi : Nat) (os : Option Nat), yy < 100 →
      1 ≤ mm → mm ≤ 12 → 1 ≤ dd → dd ≤ 31 → hh ≤ 23 → mi ≤ 59 →
      (∀ ss, os = some ss → ss ≤ 61) →
      ParsePosixTime cy (digits2 yy ++ (digits2 mm ++ (digits2 dd ++
        (digits2 hh ++ (digits2 mi ++ posixSuffix os))))) =
        .ok (GoDate (1900 + Int.ofNat yy + (if Int.ofNat yy < 69 then 100 else 0))
          mm dd hh mi (posixSecondsOf os)) ∧
      (posixSecondsOf os ≤ 59 →
        dd ≤ daysInMonth (1900 + Int.ofNat yy +
          (if Int.ofNat yy < 69 then 100 else 0)) mm →
        ParsePosixTime cy (digits2 yy ++ (digits2 mm ++ (digits2 dd ++
          (digits2 hh ++ (digits2 mi ++ posixSuffix os))))) =
          .ok ⟨1900 + Int.ofNat yy + (if Int.ofNat yy < 69 then 100 else 0),
            mm, dd, hh, mi, posixSecondsOf os⟩)) ∧
    (∀ (cy : Int) (mm dd hh mi : Nat) (os : Option Nat),
      1 ≤ mm → mm ≤ 12 → 1 ≤ dd → dd ≤ 31 → hh ≤ 23 → mi ≤ 59 →
      (∀ ss, os = some ss → ss ≤ 61) →
      ParsePosixTime cy (digits2 mm ++ (digits2 dd ++
        (digits2 hh ++ (digits2 mi ++ posixSuffix os)))) =
        .ok (GoDate cy mm dd hh mi (posixSecondsOf os)) ∧
      (posixSecondsOf os ≤ 59 → dd ≤ daysInMonth cy mm →
        ParsePosixTime cy (digits2 mm ++ (digits2 dd ++
          (digits2 hh ++ (digits2 mi ++ posixSuffix os)))) =
          .ok ⟨cy, mm, dd, hh, mi, posixSecondsOf os⟩)) ∧
    (∀ (cy : Int) (s : GoStr),
      ¬((splitDot s).1.length = 12 ∨ (splitDot s).1.length = 10 ∨
        (splitDot s).1.length = 8) →
      (ParsePosixTime cy s).isOk = false) := by
  refine ⟨?_, ?_, ?_, parsePosix_badLength⟩
  · intro cy cc yy mm dd hh mi os hcc hyy hmm1 hmm2 hdd1 hdd2 hhh hmi hos
    cases os with
    | none =>
      simp only [posixSuffix, posixSecondsOf, List.append_nil]
      refine ⟨parsePosix12_render_ns cy cc yy mm dd hh mi hcc hyy hmm1 hmm2 hdd1
        hdd2 hhh hmi, ?_⟩
      intro _ hcal
      rw [parsePosix12_render_ns cy cc yy mm dd hh mi hcc hyy hmm1 hmm2 hdd1
        hdd2 hhh hmi, GoDate_valid _ mm dd hh mi 0 hcal hhh hmi (by omega)]
    | some ss =>
      have hss : ss ≤ 61 := hos ss rfl
      simp only [posixSuffix, posixSecondsOf]
      refine ⟨parsePosix12_render cy cc yy mm dd hh mi ss hcc hyy hmm1 hmm2 hdd1
        hdd2 hhh hmi hss, ?_⟩
      intro hs59 hcal
      rw [parsePosix12_render cy cc yy mm dd hh mi ss hcc hyy hmm1 hmm2 hdd1
        hdd2 hhh hmi hss, GoDate_valid _ mm dd hh mi ss hcal hhh hmi hs59]
  · intro cy yy mm dd hh mi os hyy hmm1 hmm2 hdd1 hdd2 hhh hmi hos
    cases os with
    | none =>
      simp only [posixSuffix, posixSecondsOf, List.append_nil]
      refine ⟨parsePosix10_render cy yy mm dd hh mi hyy hmm1 hmm2 hdd1
        hdd2 hhh hmi, ?_⟩
      intro _ hcal
      rw [parsePosix10_render cy yy mm dd hh mi hyy hmm1 hmm2 hdd1
        hdd2 hhh hmi, GoDate_valid _ mm dd hh mi 0 hcal hhh hmi (by omega)]
    | some ss =>
      have hss : ss ≤ 61 := hos ss rfl
      simp only [posixSuffix, posixSecondsOf]
      refine ⟨parsePosix10_render_s cy yy mm dd hh mi ss hyy hmm1 hmm2 hdd1
        hdd2 hhh hmi hss, ?_⟩
      intro hs59 hcal
      rw [parsePosix10_render_s cy yy mm dd hh mi ss hyy hmm1 hmm2 hdd1
        hdd2 hhh hmi hss, GoDate_valid _ mm dd hh mi ss hcal hhh hmi hs59]
  · intro cy mm dd hh mi os hmm1 hmm2 hdd1 hdd2 hhh hmi hos
    cases os with
    | none =>
      simp only [posixSuffix, posixSecondsOf, List.append_nil]
      refine ⟨parsePosix8_render cy mm dd hh mi hmm1 hmm2 hdd1 hdd2 hhh hmi, ?_⟩
      intro _ hcal
      rw [parsePosix8_render cy mm dd hh mi hmm1 hmm2 hdd1 hdd2 hhh hmi,
        GoDate_valid _ mm dd hh mi 0 hcal hhh hmi (by omega)]
    | some ss =>
      have hss : ss ≤ 61 := hos ss rfl
      simp only [posixSuffix, posixSecondsOf]
      refine ⟨parsePosix8_render_s cy mm dd hh mi ss hmm1 hmm2 hdd1 hdd2 hhh hmi
        hss, ?_⟩
      intro hs59 hcal
      rw [parsePosix8_render_s cy mm dd hh mi ss hmm1 hmm2 hdd1 hdd2 hhh hmi hss,
        GoDate_valid _ mm dd hh mi ss hcal hhh hmi hs59]

/-- Witness for C5 (amended): a suffixed 12-digit stamp with a leap
second (`202507131430.60`, normalized to 14:31:00), a bare 10-digit
stamp round-tripping exactly (`2507131430`), and a suffixed 8-digit
stamp round-tripping exactly (`07131430.05`). -/
theorem parsePosix_roundtrip_witness :
    ParsePosixTime 2025 (digits2 20 ++ (digits2 25 ++ (digits2 7 ++ (digits2 13 ++
      (digits2 14 ++ (digits2 30 ++ posixSuffix (some 60))))))) =
      .ok ⟨2025, 7, 13, 14, 31, 0⟩ ∧
    ParsePosixTime 1999 (digits2 25 ++ (digits2 7 ++ (digits2 13 ++
      (digits2 14 ++ (digits2 30 ++ posixSuffix none))))) =
      .ok ⟨2025, 7, 13, 14, 30, 0⟩ ∧
    ParsePosixTime 2025 (digits2 7 ++ (digits2 13 ++
      (digits2 14 ++ (digits2 30 ++ posixSuffix (some 5))))) =
      .ok ⟨2025, 7, 13, 14, 30, 5⟩ := by
  have h12 := (parsePosix_roundtrip.1 2025 20 25 7 13 14 30 (some 60) (by omega)
    (by omega) (by omega) (by omega) (by omega) (by omega) (by omega) (by omega)
    (fun ss h => by injection h with h2; omega)).1
  have h10 := (parsePosix_roundtrip.2.1 1999 25 7 13 14 30 none (by omega)
    (by omega) (by omega) (by omega) (by omega) (by omega) (by omega)
    (fun ss h => by simp at h)).2 (by decide) (by decide)
  have h8 := (parsePosix_roundtrip.2.2.1 2025 7 13 14 30 (some 5) (by omega)
    (by omega) (by omega) (by omega) (by omega) (by omega)
    (fun ss h => by injection h with h2; omega)).2 (by decide) (by decide)
  refine ⟨?_, ?_, ?_⟩
  · rw [h12]
    decide
  · rw [h10]
    decide
  · rw [h8]
    decide

/-! ## Claim C6: the Y2K pivot of the 10-digit form -/

/-- C6: for 10-digit stamps the two-digit year maps below the pivot 69
to 2000+YY and otherwise to 1900+YY, independently of the current year;
the two example stamps resolve exactly as the spec states. -/
theorem parsePosix_y2k_pivot :
    (∀ (cy : Int) (yy mm dd hh mi : Nat), yy < 100 → 1 ≤ mm → mm ≤ 12 → 1 ≤ dd →
      dd ≤ 31 → hh ≤ 23 → mi ≤ 59 →
      (ParsePosixTime cy (digits2 yy ++ (digits2 mm ++ (digits2 dd ++
        (digits2 hh ++ digits2 mi))))).map GoTime.year =
        .ok (if yy < 69 then 2000 + Int.ofNat yy else 1900 + Int.ofNat yy)) ∧
    (∀ cy : Int, ParsePosixTime cy ( "6807131430".toList) =
      .ok ⟨2068, 7, 13, 14, 30, 0⟩) ∧
    (∀ cy : Int, ParsePosixTime cy ( "2507131430".toList) =
      .ok ⟨2025, 7, 13, 14, 30, 0⟩) := by
  refine ⟨?_, fun _ => rfl, fun _ => rfl⟩
  intro cy yy mm dd hh mi hyy hmm1 hmm2 hdd1 hdd2 hhh hmi
  rw [parsePosix10_render cy yy mm dd hh mi hyy hmm1 hmm2 hdd1 hdd2 hhh hmi]
  simp only [Except.map]
  rw [GoDate_year _ mm dd hh mi hmm2 hdd2 hhh hmi]
  simp only [Int.ofNat_eq_natCast, Except.ok.injEq]
  split_ifs <;> omega

/-- Witness for C6 at the pivot boundary year 68. -/
theorem parsePosix_y2k_pivot_witness :
    (ParsePosixTime 0 (digits2 68 ++ (digits2 7 ++ (digits2 13 ++
      (digits2 14 ++ digits2 30))))).map GoTime.year = .ok 2068 := by
  have h := parsePosix_y2k_pivot.1 0 68 7 13 14 30 (by omega) (by omega)
    (by omega) (by omega) (by omega) (by omega) (by omega)
  simpa using h

/-! ## Claim C7: non-digit characters in the pre-suffix portion -/

/-- `Atoi` fails on a two-character field containing a character that is
neither a digit nor a sign. -/
theorem goAtoi_none_of_badchar (f : GoStr) (c : Char) (hlen : f.length = 2)
    (hcm : c ∈ f) (h1 : c.isDigit = false) (h2 : c ≠ '+') (h3 : c ≠ '-') :
    goAtoi f = none := by
  rcases f with _ | ⟨a, f⟩
  · simp at hlen
  rcases f with _ | ⟨b, f⟩
  · simp at hlen
  rcases f with _ | ⟨x, f⟩
  swap
  · simp at hlen
  simp only [List.mem_cons, List.not_mem_nil, or_false] at hcm
  rcases hcm with rfl | rfl
  · simp [goAtoi, h2, h3, decDigitsAux, h1]
  · by_cases ha : a = '+'
    · subst ha
      simp [goAtoi, decDigitsAux, h1]
    by_cases ha2 : a = '-'
    · subst ha2
      simp [goAtoi, decDigitsAux, h1]
    by_cases hd : a.isDigit
    · simp [goAtoi, ha, ha2, decDigitsAux, hd, h1]
    · simp [goAtoi, ha, ha2, decDigitsAux, hd]

/-- A list member is in the first `n` elements or in the rest. -/
theorem mem_take_or_drop (c : Char) (l : GoStr) (n : Nat) (h : c ∈ l) :
    c ∈ l.take n ∨ c ∈ l.drop n := by
  rw [← List.take_append_drop n l] at h
  exact List.mem_append.mp h

/-- When `parseYMDHM` succeeds, all four of its `Atoi` fields parsed. -/
theorem parseYMDHM_fields_of_isOk (year : Int) (rest : GoStr) (second : Int)
    (h : (parseYMDHM year rest second).isOk = true) :
    goAtoi (rest.take 2) ≠ none ∧ goAtoi ((rest.drop 2).take 2) ≠ none ∧
    goAtoi ((rest.drop 4).take 2) ≠ none ∧ goAtoi ((rest.drop 6).take 2) ≠ none := by
  unfold parseYMDHM at h
  rcases hm1 : goAtoi (rest.take 2) with _ | mo <;> rw [hm1] at h
  · simp [Except.isOk, Except.toBool] at h
  rcases hm2 : goAtoi ((rest.drop 2).take 2) with _ | da <;> rw [hm2] at h
  · simp [Except.isOk, Except.toBool] at h
  rcases hm3 : goAtoi ((rest.drop 4).take 2) with _ | ho <;> rw [hm3] at h
  · simp [Except.isOk, Except.toBool] at h
  rcases hm4 : goAtoi ((rest.drop 6).take 2) with _ | mi <;> rw [hm4] at h
  · simp [Except.isOk, Except.toBool] at h
  exact ⟨by simp [hm1], by simp [hm2], by simp [hm3], by simp [hm4]⟩

/-- `parseYMDHM` fails on an 8-character body containing a character
that is neither a digit nor a sign. -/
theorem parseYMDHM_badchar (year : Int) (rest : GoStr) (second : Int) (c : Char)
    (hlen : rest.length = 8) (hcm : c ∈ rest) (h1 : c.isDigit = false)
    (h2 : c ≠ '+') (h3 : c ≠ '-') :
    (parseYMDHM year rest second).isOk = false := by
  cases hb : (parseYMDHM year rest second).isOk
  · rfl
  exfalso
  have hf := parseYMDHM_fields_of_isOk year rest second hb
  rcases mem_take_or_drop c rest 2 hcm with hm | hr
  · exact hf.1 (goAtoi_none_of_badchar _ c (by rw [List.length_take]; omega) hm h1 h2 h3)
  rcases mem_take_or_drop c (rest.drop 2) 2 hr with hm | hr
  · exact hf.2.1 (goAtoi_none_of_badchar _ c
      (by rw [List.length_take, List.length_drop]; omega) hm h1 h2 h3)
  have hr4 : c ∈ rest.drop 4 := by simpa [List.drop_drop] using hr
  rcases mem_take_or_drop c (rest.drop 4) 2 hr4 with hm | hr
  · exact hf.2.2.1 (goAtoi_none_of_badchar _ c
      (by rw [List.length_take, List.length_drop]; omega) hm h1 h2 h3)
  have hr6 : c ∈ rest.drop 6 := by simpa [List.drop_drop] using hr
  rcases mem_take_or_drop c (rest.drop 6) 2 hr6 with hm | hr
  · exact hf.2.2.2 (goAtoi_none_of_badchar _ c
      (by rw [List.length_take, List.length_drop]; omega) hm h1 h2 h3)
  have hr8 : c ∈ rest.drop 8 := by simpa [List.drop_drop] using hr
  rw [List.drop_eq_nil_of_le (by omega)] at hr8
  simp at hr8

/-- Counterexample to C7 as stated: the input `+101020304` has a
pre-suffix portion of length 10 containing the non-digit `+`, yet
`ParsePosixTime` accepts it — Go's `strconv.Atoi` parses the signed
field `+1` — yielding 2001-01-02T03:04:00. -/
theorem parsePosix_nondigit_counterexample :
    ('+' ∈ (splitDot ( "+101020304".toList)).1 ∧ ('+').isDigit = false ∧
      (splitDot ( "+101020304".toList)).1.length = 10) ∧
    ParsePosixTime 2025 ( "+101020304".toList) = .ok ⟨2001, 1, 2, 3, 4, 0⟩ := by
  refine ⟨⟨by decide, by decide, by decide⟩, by decide⟩

/-- C7 (amended): any character of the pre-suffix portion that is
neither a decimal digit nor one of the sign characters `+`/`-` accepted
by `strconv.Atoi` at the start of a two-character field makes
`ParsePosixTime` fail. -/
theorem parsePosix_nondigit (cy : Int) (s : GoStr) (c : Char)
    (hc : c ∈ (splitDot s).1) (h1 : c.isDigit = false)
    (h2 : c ≠ '+') (h3 : c ≠ '-') :
    (ParsePosixTime cy s).isOk = false := by
  cases hb : (ParsePosixTime cy s).isOk
  · rfl
  exfalso
  unfold ParsePosixTime at hb
  rcases hps : parseSeconds (splitDot s).2 with e | v <;> rw [hps] at hb
  · simp [Except.isOk, Except.toBool] at hb
  dsimp only at hb
  by_cases h12 : (splitDot s).1.length = 12
  · rw [if_pos h12] at hb
    rcases mem_take_or_drop c (splitDot s).1 2 hc with hm | hr
    · rw [goAtoi_none_of_badchar _ c (by rw [List.length_take]; omega) hm h1 h2 h3] at hb
      simp [Except.isOk, Except.toBool] at hb
    rcases hA : goAtoi ((splitDot s).1.take 2) with _ | cen <;> rw [hA] at hb
    · simp [Except.isOk, Except.toBool] at hb
    rcases mem_take_or_drop c ((splitDot s).1.drop 2) 2 hr with hm | hr
    · rw [goAtoi_none_of_badchar _ c
        (by rw [List.length_take, List.length_drop]; omega) hm h1 h2 h3] at hb
      simp [Except.isOk, Except.toBool] at hb
    rcases hB : goAtoi (((splitDot s).1.drop 2).take 2) with _ | y2 <;> rw [hB] at hb
    · simp [Except.isOk, Except.toBool] at hb
    have hr4 : c ∈ (splitDot s).1.drop 4 := by simpa [List.drop_drop] using hr
    rw [parseYMDHM_badchar _ ((splitDot s).1.drop 4) v c
      (by rw [List.length_drop]; omega) hr4 h1 h2 h3] at hb
    simp at hb
  by_cases h10 : (splitDot s).1.length = 10
  · rw [if_neg h12, if_pos h10] at hb
    rcases mem_take_or_drop c (splitDot s).1 2 hc with hm | hr
    · rw [goAtoi_none_of_badchar _ c (by rw [List.length_take]; omega) hm h1 h2 h3] at hb
      simp [Except.isOk, Except.toBool] at hb
    rcases hA : goAtoi ((splitDot s).1.take 2) with _ | y2 <;> rw [hA] at hb
    · simp [Except.isOk, Except.toBool] at hb
    rw [parseYMDHM_badchar _ ((splitDot s).1.drop 2) v c
      (by rw [List.length_drop]; omega) hr h1 h2 h3] at hb
    simp at hb
  by_cases h8 : (splitDot s).1.length = 8
  · rw [if_neg h12, if_neg h10, if_pos h8] at hb
    rw [parseYMDHM_badchar _ ((splitDot s).1) v c h8 hc h1 h2 h3] at hb
    simp at hb
  · rw [if_neg h12, if_neg h10, if_neg h8] at hb
    simp [Except.isOk, Except.toBool] at hb

/-- Witness for C7 (amended): the letter `a` inside an 8-digit-shaped
stamp makes parsing fail. -/
theorem parsePosix_nondigit_witness :
    (ParsePosixTime 2025 ( "0a130405".toList)).isOk = false :=
  parsePosix_nondigit 2025 ( "0a130405".toList) 'a' (by decide) (by decide)
    (by decide) (by decide)

/-! ## Claim C8: the flexible date formats -/

/-- C8: `ParseDate` tries its seven formats in order and takes the
first success: a bare date yields local midnight of that date, a bare
`hh:mm` clock is re-combined with the current local date, and an input
matching no format yields the unsupported-date-format error. -/
theorem parseDate_formats (now : GoTime) :
    ParseDate now ( "2025-07-13".toList) = .ok ⟨2025, 7, 13, 0, 0, 0⟩ ∧
    (now.day ≤ daysInMonth now.year now.month →
      ParseDate now ( "14:30".toList) = .ok ⟨now.year, now.month, now.day, 14, 30, 0⟩) ∧
    ParseDate now ( "2025/07/13".toList) = .error .unsupportedDateFormat := by
  refine ⟨rfl, ?_, rfl⟩
  intro hday
  have hstep : ParseDate now ( "14:30".toList) =
      .ok (GoDate now.year now.month now.day 14 30 0) := rfl
  rw [hstep, GoDate_valid now.year now.month now.day 14 30 0 hday (by omega)
    (by omega) (by omega)]

/-- Witness for C8 at a concrete calendar-valid current time. -/
theorem parseDate_formats_witness :
    ParseDate ⟨2026, 2, 5, 9, 8, 7⟩ ( "2025-07-13".toList) =
      .ok ⟨2025, 7, 13, 0, 0, 0⟩ ∧
    ParseDate ⟨2026, 2, 5, 9, 8, 7⟩ ( "14:30".toList) = .ok ⟨2026, 2, 5, 14, 30, 0⟩ ∧
    ParseDate ⟨2026, 2, 5, 9, 8, 7⟩ ( "2025/07/13".toList) =
      .error .unsupportedDateFormat := by
  have h := parseDate_formats ⟨2026, 2, 5, 9, 8, 7⟩
  exact ⟨h.1, h.2.1 (by decide), h.2.2⟩

